import Mathlib

/-!
Verification of mesonbuild/wrap/wrap.py (the subproject wrap resolver).

The Python module is embedded shallowly:
* the filesystem is an explicit value (`FS`): a list of files (path, bytes,
  read-only flag) plus a list of existing directories; paths are lists of
  components, mirroring `os.path.join`;
* external processes (`git`, `hg`, `svn`), the network, `hashlib.sha256`,
  `configparser`, `shutil.unpack_archive` archive decoding and the fresh
  temporary names handed out by `tempfile` are oracles collected in `Env`;
* every fallible operation returns `Except Err`, where `Err` mirrors the
  exceptions the Python code can raise;
* each `Resolver` method returns an `Out α`: the result, the filesystem after
  the call, the counter used for fresh temporary names, and a trace of the
  observable effects (subprocess invocations, network fetches, warnings).
-/

set_option autoImplicit false

deriving instance DecidableEq for Except

namespace Wrap

/-- File contents, as a byte sequence. -/
abbrev Bytes := List Nat

/-- A regular file: its bytes plus a read-only flag (`stat` write permission). -/
structure File where
  content : Bytes
  readonly : Bool
deriving DecidableEq, Repr

/-- A filesystem path, as the list of components joined by `os.path.join`. -/
abbrev Path := List String

/-- The filesystem: regular files and directories.  Lookup is first-match. -/
structure FS where
  files : List (Path × File)
  dirs : List Path
deriving DecidableEq, Repr

/-- `open(p)`: the file stored at `p`, if any. -/
def FS.getFile (fs : FS) (p : Path) : Option File :=
  (fs.files.find? (fun e => decide (e.1 = p))).map (·.2)

/-- `os.path.isfile`. -/
def FS.isFile (fs : FS) (p : Path) : Bool :=
  (fs.getFile p).isSome

/-- `os.path.isdir`. -/
def FS.isDir (fs : FS) (p : Path) : Bool :=
  decide (p ∈ fs.dirs)

/-- `os.path.exists`. -/
def FS.pathExists (fs : FS) (p : Path) : Bool :=
  fs.isFile p || fs.isDir p

/-- The proper prefixes of a path: the ancestor directories `os.makedirs`
would create for it. -/
def ancestors (p : Path) : List Path :=
  (List.range p.length).map (fun k => p.take k)

/-- Write (create or overwrite) the file at `p`. -/
def FS.writeFile (fs : FS) (p : Path) (f : File) : FS :=
  { fs with files := (p, f) :: fs.files.filter (fun e => decide (e.1 ≠ p)) }

/-- `os.makedirs p` (also used for the directories an archive extraction
creates): `p` and all its ancestors come into existence. -/
def FS.mkdirs (fs : FS) (p : Path) : FS :=
  { fs with dirs := ancestors p ++ [p] ++ fs.dirs }

/-- `os.mkdir p`: fails with `FileExistsError` when `p` already exists. -/
def FS.mkdir (fs : FS) (p : Path) : Except (Path × Unit) FS :=
  if fs.pathExists p then .error (p, ()) else .ok { fs with dirs := p :: fs.dirs }

/-- `os.remove p` (the wrap code always clears the read-only bit on
`PermissionError` and retries, so removal always succeeds). -/
def FS.removeFile (fs : FS) (p : Path) : FS :=
  { fs with files := fs.files.filter (fun e => decide (e.1 ≠ p)) }

/-- `os.rename a b`. -/
def FS.rename (fs : FS) (a b : Path) : FS :=
  match fs.getFile a with
  | some f => (fs.removeFile a).writeFile b f
  | none => fs

/-- `shutil.rmtree p` / `tempfile.TemporaryDirectory` cleanup: remove `p` and
everything below it. -/
def FS.removeTree (fs : FS) (p : Path) : FS :=
  { files := fs.files.filter (fun e => !(p.isPrefixOf e.1)),
    dirs := fs.dirs.filter (fun d => !(p.isPrefixOf d)) }

/-- The regular files strictly below `root`, in the order `os.walk` yields
them in this model. -/
def FS.filesUnder (fs : FS) (root : Path) : List (Path × File) :=
  fs.files.filter (fun e => root.isPrefixOf e.1 && decide (e.1 ≠ root))

/-- Python `str.startswith`, on the underlying character list. -/
def strStartsWith (s pre : String) : Bool :=
  pre.data.isPrefixOf s.data

/-- Python `s[n:]`. -/
def strDrop (s : String) (n : Nat) : String :=
  ⟨s.data.drop n⟩

/-- Python `str.lower` (ASCII, which is all the wrap code compares). -/
def strToLower (s : String) : String :=
  ⟨s.data.map Char.toLower⟩

/-- The exceptions `wrap.py` can raise, by Python exception and message. -/
inductive Err where
  /-- `IndexError` from `self.config.sections()[0]` on a file with no section. -/
  | indexError
  /-- `RuntimeError('Invalid format of package file')`. -/
  | invalidFormat
  /-- `KeyError` from `p.get(key)` / `self.values[key]`. -/
  | keyError (k : String)
  /-- `RuntimeError(... already exists and is not a dir ...)`. -/
  | notADir (d : Path)
  /-- `RuntimeError('No <name>.wrap found ...')`. -/
  | noWrapFile (pkg : String)
  /-- `RuntimeError('Automatic wrap-based subproject downloading is disabled')`. -/
  | downloadDisabled
  /-- `RuntimeError('Incorrect hash for <what>: ...')`. -/
  | hashMismatch (what expected actual : String)
  /-- `RuntimeError('submodule <dir> has merge conflicts')`. -/
  | mergeConflict (d : Path)
  /-- `RuntimeError('Failed to git submodule init <dir>')`. -/
  | submoduleInitFail (d : Path)
  /-- `RuntimeError('Unknown git submodule output: <out>')`. -/
  | unknownSubmoduleOutput (out : String)
  /-- `RuntimeError('<dir> is not empty but is not a valid git repository ...')`. -/
  | notGitRepo (d : Path)
  /-- `subprocess.CalledProcessError` from `subprocess.check_call(argv)`. -/
  | calledProcessError (argv : List String)
  /-- `RuntimeError('<dir> is not empty and has no meson.build files')`. -/
  | noMesonFile (d : Path)
  /-- `AssertionError('Unreachable code.')`. -/
  | unreachable
  /-- `FileExistsError` from `os.mkdir`. -/
  | fileExists (p : Path)
  /-- `FileNotFoundError` from `open`. -/
  | fileNotFound (p : Path)
  /-- `shutil.unpack_archive` failure (bad archive or write error). -/
  | unpackError (p : Path)
deriving DecidableEq, Repr

/-- An external process invocation: argv plus working directory
(`[]` = inherit the caller's). -/
structure Cmd where
  argv : List String
  cwd : Path
deriving DecidableEq, Repr

/-- The observable effects of a resolution: subprocess runs, network
fetches, and the `mlog.warning` about an out-of-date submodule. -/
inductive Effect where
  | net (url : String)
  | runC (c : Cmd)
  | warnOutOfDate (dir : Path)
deriving DecidableEq, Repr

/-- Render a path the way it appears in an argv (components joined by `/`). -/
def pathString (p : Path) : String :=
  String.intercalate "/" p

/-- Modelled from the spec: the externally supplied download-permission mode.
`WrapMode` is imported from the wrap package root (`wrap/__init__.py`), which
is not under `src/`; the source only ever consults the value that forbids
downloads, `nodownload`. -/
inductive WrapMode where
  | default
  | nofallback
  | nodownload
deriving DecidableEq, Repr

/-- The oracles for everything outside `wrap.py`: hashing, INI parsing,
the network, fresh temporary names, archive decoding, and the effect of
running an external process on the filesystem. -/
structure Env where
  /-- `hashlib.sha256(bytes).hexdigest()`. -/
  sha : Bytes → String
  /-- `configparser`: the sections of an INI file, each with its key/value
  pairs, in file order. -/
  parseIni : Bytes → List (String × List (String × String))
  /-- The network: a URL's response body as the list of blocks
  `resp.read(blocksize)` yields. -/
  net : String → List Bytes
  /-- `tempfile.NamedTemporaryFile(dir=cachedir)`: the basename of the
  `i`-th fresh temporary file. -/
  tmp : Nat → String
  /-- `tempfile.TemporaryDirectory()`: the path of the `i`-th fresh
  scratch directory. -/
  scratch : Nat → Path
  /-- The entries (relative path, file) of an archive, or `none` when the
  bytes are not a recognized archive. -/
  parseArchive : Bytes → Option (List (Path × File))
  /-- Whether `shutil.unpack_archive` succeeds writing into the given
  destination (it can fail on e.g. permissions even for a valid archive). -/
  unpackOk : Bytes → Path → Bool
  /-- Running an external process: exit code, captured standard output, and
  the filesystem it leaves behind. -/
  run : Cmd → FS → Int × String × FS

/-- The outcome of one `Resolver` method: result, filesystem after the
call, fresh-name counter, and effect trace. -/
structure Out (α : Type) where
  res : Except Err α
  fs : FS
  ctr : Nat
  tr : List Effect
deriving Repr

/-- First-match lookup in a `dict`-like key/value list. -/
def lookupVal (vals : List (String × String)) (k : String) : Option String :=
  (vals.find? (fun e => decide (e.1 = k))).map (·.2)

/-- Embeds `PackageDefinition` (post-`__init__` state): the wrap kind and
the section's key/value pairs. -/
structure PackageDefinition where
  type : String
  values : List (String × String)
deriving DecidableEq, Repr

/-- Embeds `PackageDefinition.__init__` over the parsed sections of the wrap
file: `self.config.sections()[0]` raises `IndexError` when there is no
section; a first section whose name does not start with `wrap-` raises
`RuntimeError('Invalid format of package file')`; otherwise the kind is the
section name after the five-character prefix and the values are the
section's pairs. -/
def PackageDefinition.init (sections : List (String × List (String × String))) :
    Except Err PackageDefinition :=
  match sections with
  | [] => .error .indexError
  | (name, kvs) :: _ =>
    if strStartsWith name "wrap-" then .ok ⟨strDrop name 5, kvs⟩
    else .error .invalidFormat

/-- Embeds `PackageDefinition.get`: `self.values[key]`, raising `KeyError`
when absent. -/
def PackageDefinition.get (pd : PackageDefinition) (k : String) : Except Err String :=
  match lookupVal pd.values k with
  | some v => .ok v
  | none => .error (.keyError k)

/-- Embeds `PackageDefinition.has_patch`: `'patch_url' in self.values`. -/
def PackageDefinition.has_patch (pd : PackageDefinition) : Bool :=
  (lookupVal pd.values "patch_url").isSome

/-- Embeds the `Resolver` constructor state: the subprojects root and the
download-permission mode. -/
structure Resolver where
  subdir_root : Path
  wrap_mode : WrapMode
deriving DecidableEq, Repr

/-- `self.cachedir = os.path.join(self.subdir_root, 'packagecache')`. -/
def Resolver.cachedir (r : Resolver) : Path :=
  r.subdir_root ++ ["packagecache"]

/-- Embeds `Resolver.check_can_download`: raise when the wrap mode is
`nodownload`. -/
def Resolver.check_can_download (r : Resolver) : Except Err Unit :=
  if r.wrap_mode = WrapMode.nodownload then .error .downloadDisabled else .ok ()

/-- Embeds `Resolver.load_wrap`: parse `<subdir_root>/<packagename>.wrap`
when it is a file, else `None`.  Reading mutates nothing. -/
def Resolver.load_wrap (env : Env) (r : Resolver) (packagename : String) (fs : FS) :
    Except Err (Option PackageDefinition) :=
  let fname := r.subdir_root ++ [packagename ++ ".wrap"]
  match fs.getFile fname with
  | some f => (PackageDefinition.init (env.parseIni f.content)).map some
  | none => .ok none

/-- Embeds `Resolver.resolve_git_submodule`: classify the first character of
`git submodule status <dirname>` and reconcile accordingly. -/
def Resolver.resolve_git_submodule (env : Env) (r : Resolver) (dirname : Path)
    (fs : FS) (ctr : Nat) : Out Bool :=
  let c1 : Cmd := ⟨["git", "-C", pathString r.subdir_root, "rev-parse"], []⟩
  match env.run c1 fs with
  | (e1, _, fs1) =>
  if e1 ≠ 0 then ⟨.ok false, fs1, ctr, [.runC c1]⟩
  else
    let c2 : Cmd := ⟨["git", "-C", pathString r.subdir_root, "submodule", "status",
                      pathString dirname], []⟩
    match env.run c2 fs1 with
    | (e2, out, fs2) =>
    if e2 ≠ 0 then ⟨.ok false, fs2, ctr, [.runC c1, .runC c2]⟩
    else if strStartsWith out "+" then
      ⟨.ok true, fs2, ctr, [.runC c1, .runC c2, .warnOutOfDate dirname]⟩
    else if strStartsWith out "U" then
      ⟨.error (.mergeConflict dirname), fs2, ctr, [.runC c1, .runC c2]⟩
    else if strStartsWith out "-" then
      let c3 : Cmd := ⟨["git", "-C", pathString r.subdir_root, "submodule", "update",
                        "--init", pathString dirname], []⟩
      match env.run c3 fs2 with
      | (e3, _, fs3) =>
      if e3 = 0 then ⟨.ok true, fs3, ctr, [.runC c1, .runC c2, .runC c3]⟩
      else ⟨.error (.submoduleInitFail dirname), fs3, ctr, [.runC c1, .runC c2, .runC c3]⟩
    else if strStartsWith out " " then
      let c4 : Cmd := ⟨["git", "checkout", "."], dirname⟩
      match env.run c4 fs2 with
      | (_, _, fs4) => ⟨.ok true, fs4, ctr, [.runC c1, .runC c2, .runC c4]⟩
    else if out = "" then ⟨.ok false, fs2, ctr, [.runC c1, .runC c2]⟩
    else ⟨.error (.unknownSubmoduleOutput out), fs2, ctr, [.runC c1, .runC c2]⟩

/-- Embeds `Resolver.check_hash`: recompute the SHA-256 of the file at
`path` and compare it with the declaration's `<what>_hash`. -/
def Resolver.check_hash (env : Env) (pd : PackageDefinition) (what : String)
    (path : Path) (fs : FS) : Except Err Unit :=
  match pd.get (what ++ "_hash") with
  | .error e => .error e
  | .ok expected =>
    match fs.getFile path with
    | none => .error (.fileNotFound path)
    | some f =>
      let dhash := env.sha f.content
      if dhash ≠ expected then .error (.hashMismatch what expected dhash) else .ok ()

/-- Embeds `Resolver.get_data`: stream the URL into a fresh
`NamedTemporaryFile` in the cache directory while feeding a SHA-256; return
the final digest and the temporary file's name. -/
def Resolver.get_data (env : Env) (r : Resolver) (url : String) (fs : FS) (ctr : Nat) :
    String × Path × FS × Nat × List Effect :=
  let tmppath := r.cachedir ++ [env.tmp ctr]
  let data := (env.net url).foldl (fun a b => a ++ b) []
  (env.sha data, tmppath, fs.writeFile tmppath ⟨data, false⟩, ctr + 1, [.net url])

/-- The filesystem states `Resolver.get_data` passes through: one after the
temporary file is created and one after each block of the read loop is
appended to it (the digest having been updated with the same block). -/
def writeStates (fs : FS) (tmppath : Path) (acc : Bytes) : List Bytes → List FS
  | [] => [fs.writeFile tmppath ⟨acc, false⟩]
  | b :: bs => fs.writeFile tmppath ⟨acc, false⟩ :: writeStates fs tmppath (acc ++ b) bs

/-- The intermediate filesystem states of `Resolver.get_data`, including every
prefix an interruption of the download loop could leave behind. -/
def Resolver.get_data_states (env : Env) (r : Resolver) (url : String) (fs : FS)
    (ctr : Nat) : List FS :=
  writeStates fs (r.cachedir ++ [env.tmp ctr]) [] (env.net url)

/-- Embeds `Resolver.download`: check the mode, fetch `<what>_url` into a
temporary file, compare the digest with `<what>_hash`; on mismatch delete
the temporary file and raise, on match rename it onto `ofname`. -/
def Resolver.download (env : Env) (r : Resolver) (pd : PackageDefinition)
    (what : String) (ofname : Path) (fs : FS) (ctr : Nat) : Out Unit :=
  match r.check_can_download with
  | .error e => ⟨.error e, fs, ctr, []⟩
  | .ok _ =>
  match pd.get (what ++ "_url") with
  | .error e => ⟨.error e, fs, ctr, []⟩
  | .ok srcurl =>
  match Resolver.get_data env r srcurl fs ctr with
  | (dhash, tmpfile, fs1, c1, t1) =>
  match pd.get (what ++ "_hash") with
  | .error e => ⟨.error e, fs1, c1, t1⟩
  | .ok expected =>
  if dhash ≠ expected then
    ⟨.error (.hashMismatch what expected dhash), fs1.removeFile tmpfile, c1, t1⟩
  else ⟨.ok (), fs1.rename tmpfile ofname, c1, t1⟩

/-- Embeds `Resolver.get_file_internal`: cache hit re-verifies the hash and
returns the cache path; cache miss creates the cache directory if needed and
downloads into the cache path. -/
def Resolver.get_file_internal (env : Env) (r : Resolver) (pd : PackageDefinition)
    (what : String) (fs : FS) (ctr : Nat) : Out Path :=
  match pd.get (what ++ "_filename") with
  | .error e => ⟨.error e, fs, ctr, []⟩
  | .ok filename =>
  let cache_path := r.cachedir ++ [filename]
  if fs.pathExists cache_path then
    match Resolver.check_hash env pd what cache_path fs with
    | .error e => ⟨.error e, fs, ctr, []⟩
    | .ok _ => ⟨.ok cache_path, fs, ctr, []⟩
  else
    let step : Except Err FS :=
      if fs.isDir r.cachedir then .ok fs
      else match fs.mkdir r.cachedir with
        | .error (p, _) => .error (.fileExists p)
        | .ok fs1 => .ok fs1
    match step with
    | .error e => ⟨.error e, fs, ctr, []⟩
    | .ok fs1 =>
    match Resolver.download env r pd what cache_path fs1 ctr with
    | ⟨.error e, fs2, c2, t2⟩ => ⟨.error e, fs2, c2, t2⟩
    | ⟨.ok _, fs2, c2, t2⟩ => ⟨.ok cache_path, fs2, c2, t2⟩

/-- One entry of an archive extraction: create the entry's directories and
write the entry's file below `dest`. -/
def installStep (dest : Path) (acc : FS) (e : Path × File) : FS :=
  (acc.mkdirs (dest ++ e.1).dropLast).writeFile (dest ++ e.1) e.2

/-- Embeds `shutil.unpack_archive(path, dest)`: decode the archive stored at
`path` and materialize each entry below `dest`, creating the entry's
directories; fails when the bytes are not an archive or the oracle says the
write into `dest` fails. -/
def unpack_archive (env : Env) (fs : FS) (path dest : Path) : Except Err FS :=
  match fs.getFile path with
  | none => .error (.fileNotFound path)
  | some f =>
    match env.parseArchive f.content with
    | none => .error (.unpackError path)
    | some entries =>
      if env.unpackOk f.content dest then
        .ok (entries.foldl (installStep dest) fs)
      else .error (.unpackError path)

/-- The per-file body of the `Resolver.copy_tree` walk: rewrite the
`root_src` prefix of the file's path to `root_dst` (`src_dir.replace`),
create the destination directory when missing (`os.makedirs`), remove any
existing destination file — the read-only attribute is cleared on a
`PermissionError`, so removal always succeeds — and copy the file with its
metadata (`shutil.copy2`). -/
def copyStep (root_src root_dst : Path) (acc : FS) (e : Path × File) : FS :=
  let dst_file := root_dst ++ e.1.drop root_src.length
  let acc1 := if acc.pathExists dst_file.dropLast then acc
              else acc.mkdirs dst_file.dropLast
  (acc1.removeFile dst_file).writeFile dst_file e.2

/-- Embeds `Resolver.copy_tree`: apply `copyStep` to every file below
`root_src`. -/
def Resolver.copy_tree (fs : FS) (root_src root_dst : Path) : FS :=
  (fs.filesUnder root_src).foldl (copyStep root_src root_dst) fs

/-- Embeds `Resolver.apply_patch`: fetch the patch archive through the cache,
try to unpack it directly over the subprojects root; on any failure unpack it
into a fresh scratch directory, `copy_tree` the scratch into the subprojects
root, and remove the scratch directory regardless of the outcome. -/
def Resolver.apply_patch (env : Env) (r : Resolver) (pd : PackageDefinition)
    (fs : FS) (ctr : Nat) : Out Unit :=
  match r.get_file_internal env pd "patch" fs ctr with
  | ⟨.error e, fs1, c1, t1⟩ => ⟨.error e, fs1, c1, t1⟩
  | ⟨.ok path, fs1, c1, t1⟩ =>
  match unpack_archive env fs1 path r.subdir_root with
  | .ok fs2 => ⟨.ok (), fs2, c1, t1⟩
  | .error _ =>
    let workdir := env.scratch c1
    let fsw := { fs1 with dirs := workdir :: fs1.dirs }
    match unpack_archive env fsw path workdir with
    | .error e => ⟨.error e, fsw.removeTree workdir, c1 + 1, t1⟩
    | .ok fs2 =>
      let fs3 := Resolver.copy_tree fs2 workdir r.subdir_root
      ⟨.ok (), fs3.removeTree workdir, c1 + 1, t1⟩

/-- Embeds `Resolver.get_file`: fetch the source archive through the cache;
when the declaration has a `lead_directory_missing` key (whatever its value)
create the target directory and extract into it, otherwise extract into the
subprojects root; finally apply the patch when one is declared. -/
def Resolver.get_file (env : Env) (r : Resolver) (pd : PackageDefinition)
    (fs : FS) (ctr : Nat) : Out Unit :=
  match r.get_file_internal env pd "source" fs ctr with
  | ⟨.error e, fs1, c1, t1⟩ => ⟨.error e, fs1, c1, t1⟩
  | ⟨.ok path, fs1, c1, t1⟩ =>
  match pd.get "directory" with
  | .error e => ⟨.error e, fs1, c1, t1⟩
  | .ok dir =>
  let target_dir := r.subdir_root ++ [dir]
  let mk : Except Err (FS × Path) :=
    match lookupVal pd.values "lead_directory_missing" with
    | some _ =>
      match fs1.mkdir target_dir with
      | .error (p, _) => .error (.fileExists p)
      | .ok fs2 => .ok (fs2, target_dir)
    | none => .ok (fs1, r.subdir_root)
  match mk with
  | .error e => ⟨.error e, fs1, c1, t1⟩
  | .ok (fs2, extract_dir) =>
  match unpack_archive env fs2 path extract_dir with
  | .error e => ⟨.error e, fs2, c1, t1⟩
  | .ok fs3 =>
  if pd.has_patch then
    match r.apply_patch env pd fs3 c1 with
    | ⟨res, fs4, c2, t2⟩ => ⟨res, fs4, c2, t1 ++ t2⟩
  else ⟨.ok (), fs3, c1, t1⟩

/-- The duplicated checkout block of `Resolver.get_git` (lines repeated for
the fresh-clone and existing-checkout paths): `git checkout <revno>`; when it
fails, `git fetch <url> <revno>` then `git checkout <revno>` again, both
mandatory. -/
def gitCheckoutFallback (env : Env) (pd : PackageDefinition) (revno : String)
    (checkoutdir : Path) (fs : FS) : Except Err Unit × FS × List Effect :=
  let c3 : Cmd := ⟨["git", "checkout", revno], checkoutdir⟩
  match env.run c3 fs with
  | (e3, _, fs3) =>
  if e3 = 0 then (.ok (), fs3, [.runC c3])
  else match pd.get "url" with
    | .error e => (.error e, fs3, [.runC c3])
    | .ok url =>
    let c4 : Cmd := ⟨["git", "fetch", url, revno], checkoutdir⟩
    match env.run c4 fs3 with
    | (e4, _, fs4) =>
    if e4 ≠ 0 then (.error (.calledProcessError c4.argv), fs4, [.runC c3, .runC c4])
    else match env.run c3 fs4 with
      | (e5, _, fs5) =>
      if e5 ≠ 0 then (.error (.calledProcessError c3.argv), fs5, [.runC c3, .runC c4, .runC c3])
      else (.ok (), fs5, [.runC c3, .runC c4, .runC c3])

/-- The trailing push-url block of `Resolver.get_git`: when the declaration
has a non-empty `push-url`, point the push remote at it (mandatory). -/
def gitPushUrlStep (env : Env) (pd : PackageDefinition) (checkoutdir : Path)
    (fs : FS) : Except Err Unit × FS × List Effect :=
  match lookupVal pd.values "push-url" with
  | some pu =>
    if pu ≠ "" then
      let c : Cmd := ⟨["git", "remote", "set-url", "--push", "origin", pu], checkoutdir⟩
      match env.run c fs with
      | (e, _, fs1) =>
      if e ≠ 0 then (.error (.calledProcessError c.argv), fs1, [.runC c])
      else (.ok (), fs1, [.runC c])
    else (.ok (), fs, [])
  | none => (.ok (), fs, [])

/-- Embeds `Resolver.get_git`. -/
def Resolver.get_git (env : Env) (r : Resolver) (pd : PackageDefinition)
    (fs : FS) (ctr : Nat) : Out Unit :=
  match pd.get "directory" with
  | .error e => ⟨.error e, fs, ctr, []⟩
  | .ok dir =>
  match pd.get "revision" with
  | .error e => ⟨.error e, fs, ctr, []⟩
  | .ok revno =>
  let checkoutdir := r.subdir_root ++ [dir]
  if fs.isDir checkoutdir then
    let c1 : Cmd := ⟨["git", "rev-parse"], checkoutdir⟩
    match env.run c1 fs with
    | (e1, _, fs1) =>
    if e1 ≠ 0 then ⟨.error (.notGitRepo checkoutdir), fs1, ctr, [.runC c1]⟩
    else if strToLower revno = "head" then
      let c2 : Cmd := ⟨["git", "pull"], checkoutdir⟩
      match env.run c2 fs1 with
      | (_, _, fs2) => ⟨.ok (), fs2, ctr, [.runC c1, .runC c2]⟩
    else
      match gitCheckoutFallback env pd revno checkoutdir fs1 with
      | (res, fs2, t2) => ⟨res, fs2, ctr, .runC c1 :: t2⟩
  else
    let recursive := strToLower ((lookupVal pd.values "clone-recursive").getD "") = "true"
    match pd.get "url" with
    | .error e => ⟨.error e, fs, ctr, []⟩
    | .ok url =>
    let cClone : Cmd :=
      ⟨(if recursive then ["git", "clone", "--recursive", url, dir]
        else ["git", "clone", url, dir]), r.subdir_root⟩
    match env.run cClone fs with
    | (ec, _, fsA) =>
    if ec ≠ 0 then ⟨.error (.calledProcessError cClone.argv), fsA, ctr, [.runC cClone]⟩
    else
      let afterCheckout : Except Err Unit × FS × List Effect :=
        if strToLower revno ≠ "head" then
          gitCheckoutFallback env pd revno checkoutdir fsA
        else (.ok (), fsA, [])
      match afterCheckout with
      | (.error e, fsB, tB) => ⟨.error e, fsB, ctr, .runC cClone :: tB⟩
      | (.ok _, fsB, tB) =>
        match gitPushUrlStep env pd checkoutdir fsB with
        | (res, fsC, tC) => ⟨res, fsC, ctr, .runC cClone :: (tB ++ tC)⟩

/-- Embeds `Resolver.get_hg`. -/
def Resolver.get_hg (env : Env) (r : Resolver) (pd : PackageDefinition)
    (fs : FS) (ctr : Nat) : Out Unit :=
  match pd.get "directory" with
  | .error e => ⟨.error e, fs, ctr, []⟩
  | .ok dir =>
  match pd.get "revision" with
  | .error e => ⟨.error e, fs, ctr, []⟩
  | .ok revno =>
  let checkoutdir := r.subdir_root ++ [dir]
  if fs.isDir checkoutdir then
    if strToLower revno = "tip" then
      let c1 : Cmd := ⟨["hg", "pull"], checkoutdir⟩
      match env.run c1 fs with
      | (_, _, fs1) => ⟨.ok (), fs1, ctr, [.runC c1]⟩
    else
      let c2 : Cmd := ⟨["hg", "checkout", revno], checkoutdir⟩
      match env.run c2 fs with
      | (e2, _, fs2) =>
      if e2 = 0 then ⟨.ok (), fs2, ctr, [.runC c2]⟩
      else
        let c3 : Cmd := ⟨["hg", "pull"], checkoutdir⟩
        match env.run c3 fs2 with
        | (e3, _, fs3) =>
        if e3 ≠ 0 then ⟨.error (.calledProcessError c3.argv), fs3, ctr, [.runC c2, .runC c3]⟩
        else match env.run c2 fs3 with
          | (e4, _, fs4) =>
          if e4 ≠ 0 then
            ⟨.error (.calledProcessError c2.argv), fs4, ctr, [.runC c2, .runC c3, .runC c2]⟩
          else ⟨.ok (), fs4, ctr, [.runC c2, .runC c3, .runC c2]⟩
  else
    match pd.get "url" with
    | .error e => ⟨.error e, fs, ctr, []⟩
    | .ok url =>
    let cClone : Cmd := ⟨["hg", "clone", url, dir], r.subdir_root⟩
    match env.run cClone fs with
    | (ec, _, fsA) =>
    if ec ≠ 0 then ⟨.error (.calledProcessError cClone.argv), fsA, ctr, [.runC cClone]⟩
    else if strToLower revno ≠ "tip" then
      let cCo : Cmd := ⟨["hg", "checkout", revno], checkoutdir⟩
      match env.run cCo fsA with
      | (eo, _, fsB) =>
      if eo ≠ 0 then ⟨.error (.calledProcessError cCo.argv), fsB, ctr, [.runC cClone, .runC cCo]⟩
      else ⟨.ok (), fsB, ctr, [.runC cClone, .runC cCo]⟩
    else ⟨.ok (), fsA, ctr, [.runC cClone]⟩

/-- Modelled from the spec: `Popen_safe` lives in `mesonbuild/mesonlib.py`,
which is not under `src/`; per the spec it runs the command and captures its
standard output, here used only to read the current revision from an
`svn info` query. -/
def Popen_safe (env : Env) (c : Cmd) (fs : FS) : Int × String × FS :=
  env.run c fs

/-- Embeds `Resolver.get_svn`. -/
def Resolver.get_svn (env : Env) (r : Resolver) (pd : PackageDefinition)
    (fs : FS) (ctr : Nat) : Out Unit :=
  match pd.get "directory" with
  | .error e => ⟨.error e, fs, ctr, []⟩
  | .ok dir =>
  match pd.get "revision" with
  | .error e => ⟨.error e, fs, ctr, []⟩
  | .ok revno =>
  let checkoutdir := r.subdir_root ++ [dir]
  if fs.isDir checkoutdir then
    let cInfo : Cmd := ⟨["svn", "info", "--show-item", "revision", pathString checkoutdir], []⟩
    match Popen_safe env cInfo fs with
    | (_, out, fs1) =>
    let current_revno := out
    if current_revno = revno then ⟨.ok (), fs1, ctr, [.runC cInfo]⟩
    else if strToLower revno = "head" then
      let cUp : Cmd := ⟨["svn", "update"], checkoutdir⟩
      match env.run cUp fs1 with
      | (_, _, fs2) => ⟨.ok (), fs2, ctr, [.runC cInfo, .runC cUp]⟩
    else
      let cUpR : Cmd := ⟨["svn", "update", "-r", revno], checkoutdir⟩
      match env.run cUpR fs1 with
      | (e2, _, fs2) =>
      if e2 ≠ 0 then ⟨.error (.calledProcessError cUpR.argv), fs2, ctr, [.runC cInfo, .runC cUpR]⟩
      else ⟨.ok (), fs2, ctr, [.runC cInfo, .runC cUpR]⟩
  else
    match pd.get "url" with
    | .error e => ⟨.error e, fs, ctr, []⟩
    | .ok url =>
    let cCo : Cmd := ⟨["svn", "checkout", "-r", revno, url, dir], r.subdir_root⟩
    match env.run cCo fs with
    | (ec, _, fsA) =>
    if ec ≠ 0 then ⟨.error (.calledProcessError cCo.argv), fsA, ctr, [.runC cCo]⟩
    else ⟨.ok (), fsA, ctr, [.runC cCo]⟩

/-- The target directory of a resolution: the declaration's `directory`
override when present, else the package name (`resolve` lines 99-101). -/
def wrapDirectory (p : Option PackageDefinition) (packagename : String) : String :=
  match p with
  | some pd =>
    match lookupVal pd.values "directory" with
    | some d => d
    | none => packagename
  | none => packagename

/-- The acquisition block of `Resolver.resolve` (lines 113-134): a
pre-existing target must be a directory; an absent target needs a wrap file
and dispatches on its kind, every kind but `file` first passing the
download-permission check. -/
def Resolver.acquire (env : Env) (r : Resolver) (p : Option PackageDefinition)
    (packagename : String) (dirname : Path) (fs1 : FS) (c1 : Nat) : Out Unit :=
  if fs1.pathExists dirname then
    if !(fs1.isDir dirname) then ⟨.error (.notADir dirname), fs1, c1, []⟩
    else ⟨.ok (), fs1, c1, []⟩
  else
    match p with
    | none => ⟨.error (.noWrapFile packagename), fs1, c1, []⟩
    | some pd =>
      if pd.type = "file" then r.get_file env pd fs1 c1
      else
        match r.check_can_download with
        | .error e => ⟨.error e, fs1, c1, []⟩
        | .ok _ =>
          if pd.type = "git" then r.get_git env pd fs1 c1
          else if pd.type = "hg" then r.get_hg env pd fs1 c1
          else if pd.type = "svn" then r.get_svn env pd fs1 c1
          else ⟨.error .unreachable, fs1, c1, []⟩

/-- Embeds `Resolver.resolve`: load the wrap, compute the target directory,
short-circuit when `meson.build` is already there, reconcile submodules,
dispatch to the acquisition strategy, and require `meson.build` afterwards. -/
def Resolver.resolve (env : Env) (r : Resolver) (packagename : String)
    (fs : FS) (ctr : Nat) : Out String :=
  match r.load_wrap env packagename fs with
  | .error e => ⟨.error e, fs, ctr, []⟩
  | .ok p =>
  let directory := wrapDirectory p packagename
  let dirname := r.subdir_root ++ [directory]
  let meson_file := dirname ++ ["meson.build"]
  if fs.pathExists meson_file then ⟨.ok directory, fs, ctr, []⟩
  else
    match r.resolve_git_submodule env dirname fs ctr with
    | ⟨.error e, fs1, c1, t1⟩ => ⟨.error e, fs1, c1, t1⟩
    | ⟨.ok _, fs1, c1, t1⟩ =>
    match r.acquire env p packagename dirname fs1 c1 with
    | ⟨.error e, fs2, c2, t2⟩ => ⟨.error e, fs2, c2, t1 ++ t2⟩
    | ⟨.ok _, fs2, c2, t2⟩ =>
      if !(fs2.pathExists meson_file) then
        ⟨.error (.noMesonFile dirname), fs2, c2, t1 ++ t2⟩
      else ⟨.ok directory, fs2, c2, t1 ++ t2⟩

end Wrap

/-! ## Helper lemmas and witness environments -/

namespace Wrap

theorem FS.pathExists_of_getFile {fs : FS} {p : Path} {f : File}
    (h : fs.getFile p = some f) : fs.pathExists p = true := by
  simp [FS.pathExists, FS.isFile, h]

theorem strStartsWith_cons {s : String} {a : Char} {t : List Char}
    (h : s.data = a :: t) (b : Char) :
    strStartsWith s ⟨[b]⟩ = (b == a) := by
  simp [strStartsWith, h, List.isPrefixOf]

/-- A trivial oracle environment, used as the base of the concrete witness
environments below. -/
def baseEnv : Env :=
  { sha := fun _ => "0"
    parseIni := fun _ => []
    net := fun _ => []
    tmp := fun n => "tmp" ++ toString n
    scratch := fun n => ["tmpdir" ++ toString n]
    parseArchive := fun _ => none
    unpackOk := fun _ _ => true
    run := fun _ fs => (0, "", fs) }

end Wrap

/-! ## C8: the declaration parser -/

namespace Wrap

/-- C8, counterexample: on a declaration file with zero sections the parser
does not fail with the format error (`RuntimeError('Invalid format of package
file')`); `self.config.sections()[0]` raises `IndexError` instead. -/
theorem C8_counterexample :
    PackageDefinition.init [] ≠ Except.error Err.invalidFormat := by
  decide

/-- C8 (amended): on zero declaration sections the parser fails, but with an
index-out-of-range error rather than the format error; the format error is
raised exactly when the first section's name does not start with `wrap-`;
otherwise the parser returns a declaration whose kind is the suffix of the
section name after `wrap-` and whose fields are all key/value pairs of that
section. -/
theorem C8_parser_spec :
    PackageDefinition.init [] = Except.error Err.indexError ∧
    (∀ name kvs rest, strStartsWith name "wrap-" = false →
      PackageDefinition.init ((name, kvs) :: rest) = Except.error Err.invalidFormat) ∧
    (∀ kind kvs rest,
      PackageDefinition.init (("wrap-" ++ kind, kvs) :: rest) =
        Except.ok ⟨kind, kvs⟩) := by
  refine ⟨rfl, ?_, ?_⟩
  · intro name kvs rest h
    simp [PackageDefinition.init, h]
  · intro kind kvs rest
    have hpre : strStartsWith ("wrap-" ++ kind) "wrap-" = true := by
      simp [strStartsWith, String.data_append, List.isPrefixOf_iff_prefix]
    have hdrop : strDrop ("wrap-" ++ kind) 5 = kind := by
      show String.mk ((("wrap-" ++ kind).data).drop 5) = kind
      rw [String.data_append]
      show String.mk ((("wrap-".data ++ kind.data)).drop ("wrap-".data.length)) = kind
      rw [List.drop_left]
    simp [PackageDefinition.init, hpre, hdrop]

/-- C8, witness for the amended theorem at concrete inputs. -/
theorem C8_parser_spec_witness :
    PackageDefinition.init [("section", [("k", "v")])] = Except.error Err.invalidFormat ∧
    PackageDefinition.init [("wrap-" ++ "file", [("k", "v")])] =
      Except.ok ⟨"file", [("k", "v")]⟩ :=
  ⟨C8_parser_spec.2.1 "section" [("k", "v")] [] (by decide),
   C8_parser_spec.2.2 "file" [("k", "v")] []⟩

end Wrap

/-! ## C5: submodule status classification -/

namespace Wrap

theorem strStartsWith_char {s pre : String} {a : Char} {t : List Char} {b : Char}
    (hs : s.data = a :: t) (hp : pre.data = [b]) : strStartsWith s pre = (b == a) := by
  simp [strStartsWith, hs, hp, List.isPrefixOf]

/-- C5: submodule reconciliation classifies the first character of the
`git submodule status` output into exactly the documented branches: `+` warns
and reports a submodule, `U` raises a merge-conflict error, `-` runs an
initializing update whose failure is fatal, a space performs a best-effort
checkout and reports a submodule whatever the checkout's exit status, empty
output reports not-a-submodule, and any other leading character raises an
unrecognized-output error.  Only `U` raises unconditionally. -/
theorem C5_submodule_classification
    (env : Env) (r : Resolver) (dirname : Path) (fs fs1 fs2 : FS) (ctr : Nat)
    (o1 out : String)
    (h1 : env.run ⟨["git", "-C", pathString r.subdir_root, "rev-parse"], []⟩ fs
            = (0, o1, fs1))
    (h2 : env.run ⟨["git", "-C", pathString r.subdir_root, "submodule", "status",
                    pathString dirname], []⟩ fs1 = (0, out, fs2)) :
    (∀ t, out.data = '+' :: t →
        (r.resolve_git_submodule env dirname fs ctr).res = .ok true ∧
        Effect.warnOutOfDate dirname ∈ (r.resolve_git_submodule env dirname fs ctr).tr) ∧
    (∀ t, out.data = 'U' :: t →
        (r.resolve_git_submodule env dirname fs ctr).res = .error (.mergeConflict dirname)) ∧
    (∀ t, out.data = '-' :: t →
        ∀ e3 o3 fs3,
          env.run ⟨["git", "-C", pathString r.subdir_root, "submodule", "update",
                    "--init", pathString dirname], []⟩ fs2 = (e3, o3, fs3) →
          ((e3 = 0 → (r.resolve_git_submodule env dirname fs ctr).res = .ok true) ∧
           (e3 ≠ 0 → (r.resolve_git_submodule env dirname fs ctr).res
                       = .error (.submoduleInitFail dirname)))) ∧
    (∀ t, out.data = ' ' :: t →
        (r.resolve_git_submodule env dirname fs ctr).res = .ok true) ∧
    (out = "" → (r.resolve_git_submodule env dirname fs ctr).res = .ok false) ∧
    (∀ c t, out.data = c :: t → c ≠ '+' → c ≠ 'U' → c ≠ '-' → c ≠ ' ' →
        (r.resolve_git_submodule env dirname fs ctr).res
          = .error (.unknownSubmoduleOutput out)) := by
  refine ⟨?_, ?_, ?_, ?_, ?_, ?_⟩
  · intro t hd
    have hplus : strStartsWith out "+" = true := by
      rw [strStartsWith_char hd rfl]; simp
    simp [Resolver.resolve_git_submodule, h1, h2, hplus]
  · intro t hd
    have hplus : strStartsWith out "+" = false := by
      rw [strStartsWith_char hd rfl]; simp
    have hu : strStartsWith out "U" = true := by
      rw [strStartsWith_char hd rfl]; simp
    simp [Resolver.resolve_git_submodule, h1, h2, hplus, hu]
  · intro t hd e3 o3 fs3 h3
    have hplus : strStartsWith out "+" = false := by
      rw [strStartsWith_char hd rfl]; simp
    have hu : strStartsWith out "U" = false := by
      rw [strStartsWith_char hd rfl]; simp
    have hm : strStartsWith out "-" = true := by
      rw [strStartsWith_char hd rfl]; simp
    constructor
    · intro he3
      simp [Resolver.resolve_git_submodule, h1, h2, hplus, hu, hm, h3, he3]
    · intro he3
      simp [Resolver.resolve_git_submodule, h1, h2, hplus, hu, hm, h3, he3]
  · intro t hd
    have hplus : strStartsWith out "+" = false := by
      rw [strStartsWith_char hd rfl]; simp
    have hu : strStartsWith out "U" = false := by
      rw [strStartsWith_char hd rfl]; simp
    have hm : strStartsWith out "-" = false := by
      rw [strStartsWith_char hd rfl]; simp
    have hsp : strStartsWith out " " = true := by
      rw [strStartsWith_char hd rfl]; simp
    simp [Resolver.resolve_git_submodule, h1, h2, hplus, hu, hm, hsp]
  · intro he
    subst he
    simp [Resolver.resolve_git_submodule, h1, h2, strStartsWith, List.isPrefixOf]
  · intro c t hd hc1 hc2 hc3 hc4
    have hplus : strStartsWith out "+" = false := by
      rw [strStartsWith_char hd rfl]; simp [Ne.symm hc1]
    have hu : strStartsWith out "U" = false := by
      rw [strStartsWith_char hd rfl]; simp [Ne.symm hc2]
    have hm : strStartsWith out "-" = false := by
      rw [strStartsWith_char hd rfl]; simp [Ne.symm hc3]
    have hsp : strStartsWith out " " = false := by
      rw [strStartsWith_char hd rfl]; simp [Ne.symm hc4]
    have hne : out ≠ "" := by
      intro he; rw [he] at hd; simp at hd
    simp [Resolver.resolve_git_submodule, h1, h2, hplus, hu, hm, hsp, hne]

/-- The environment of the C5 witness: the submodule status query reports a
merge conflict. -/
def envC5 : Env :=
  { baseEnv with run := fun c fs =>
      if c.argv = ["git", "-C", "sub", "submodule", "status", "sub/foo"]
      then (0, "U sub/foo", fs) else (0, "", fs) }

/-- C5, witness: a concrete environment exercising the `U` (merge conflict)
classification through the theorem. -/
theorem C5_submodule_classification_witness :
    ((⟨["sub"], WrapMode.default⟩ : Resolver).resolve_git_submodule
        envC5 ["sub", "foo"] ⟨[], []⟩ 0).res
      = .error (.mergeConflict ["sub", "foo"]) :=
  (C5_submodule_classification envC5 ⟨["sub"], WrapMode.default⟩ ["sub", "foo"]
      ⟨[], []⟩ ⟨[], []⟩ ⟨[], []⟩ 0 "" "U sub/foo" rfl rfl).2.1
    " sub/foo".data rfl

end Wrap

/-! ## C1: cache hit re-verifies the hash -/

namespace Wrap

/-- C1: for any artifact role, when a file already exists at the cache path
for the declared filename, `get_file_internal` recomputes its SHA-256 and
compares it with the declaration's `<role>_hash`: a mismatch raises the
hash-mismatch error with the filesystem untouched and no download or other
effect (the empty trace), and the cached path is returned — again with no
effect — exactly when the hashes agree. -/
theorem C1_cache_hit_verifies
    (env : Env) (r : Resolver) (pd : PackageDefinition) (what : String)
    (fs : FS) (ctr : Nat) (filename expected : String) (f : File)
    (hfn : lookupVal pd.values (what ++ "_filename") = some filename)
    (hhash : lookupVal pd.values (what ++ "_hash") = some expected)
    (hcache : fs.getFile (r.cachedir ++ [filename]) = some f) :
    (env.sha f.content ≠ expected →
      r.get_file_internal env pd what fs ctr =
        ⟨.error (.hashMismatch what expected (env.sha f.content)), fs, ctr, []⟩) ∧
    (env.sha f.content = expected →
      r.get_file_internal env pd what fs ctr =
        ⟨.ok (r.cachedir ++ [filename]), fs, ctr, []⟩) := by
  have hex := FS.pathExists_of_getFile hcache
  constructor
  · intro hne
    simp [Resolver.get_file_internal, Resolver.check_hash, PackageDefinition.get,
          hfn, hhash, hcache, hex, hne]
  · intro heq
    simp [Resolver.get_file_internal, Resolver.check_hash, PackageDefinition.get,
          hfn, hhash, hcache, hex, heq]

/-- The hashing environment of the C1 witness: the cached bytes `[7]` hash to
`GOOD`. -/
def envC1 : Env :=
  { baseEnv with sha := fun b => if b = [7] then "GOOD" else "BAD" }

/-- The declaration of the C1 witness. -/
def pdC1 : PackageDefinition :=
  ⟨"file", [("source_filename", "a.tar"), ("source_hash", "GOOD"),
            ("patch_filename", "p.tar"), ("patch_hash", "OTHER")]⟩

/-- The filesystem of the C1 witness: both declared artifacts are cached;
the source artifact's hash matches, the patch artifact's does not. -/
def fsC1 : FS :=
  ⟨[(["sub", "packagecache", "a.tar"], ⟨[7], false⟩),
    (["sub", "packagecache", "p.tar"], ⟨[9], false⟩)], []⟩

/-- C1, witness: at the concrete cache-hit inputs, the matching source hash
returns the cache path unchanged and the mismatching patch hash raises. -/
theorem C1_cache_hit_verifies_witness :
    (⟨["sub"], WrapMode.default⟩ : Resolver).get_file_internal envC1 pdC1 "source" fsC1 0 =
      ⟨.ok ["sub", "packagecache", "a.tar"], fsC1, 0, []⟩ ∧
    (⟨["sub"], WrapMode.default⟩ : Resolver).get_file_internal envC1 pdC1 "patch" fsC1 0 =
      ⟨.error (.hashMismatch "patch" "OTHER" "BAD"), fsC1, 0, []⟩ :=
  ⟨(C1_cache_hit_verifies envC1 ⟨["sub"], WrapMode.default⟩ pdC1 "source" fsC1 0
      "a.tar" "GOOD" ⟨[7], false⟩ rfl rfl rfl).2 rfl,
   (C1_cache_hit_verifies envC1 ⟨["sub"], WrapMode.default⟩ pdC1 "patch" fsC1 0
      "p.tar" "OTHER" ⟨[9], false⟩ rfl rfl rfl).1 (by decide)⟩

end Wrap

/-! ## C7: pulling the symbolic latest revision is non-fatal -/

namespace Wrap

/-- C7: for an existing VCS checkout whose declared revision is the symbolic
latest (`HEAD` for git and svn, `tip` for hg), the strategy ignores the
update/pull command's exit status entirely and succeeds for every possible
exit; and at the `resolve` level an existing checkout that already holds
`meson.build` is returned as-is, with no command run at all, so it remains
usable offline. -/
theorem C7_latest_pull_nonfatal
    (env : Env) (r : Resolver) (pd : PackageDefinition) (fs : FS) (ctr : Nat)
    (d rev : String)
    (hdir : lookupVal pd.values "directory" = some d)
    (hrev : lookupVal pd.values "revision" = some rev)
    (hthere : fs.isDir (r.subdir_root ++ [d]) = true) :
    (strToLower rev = "head" →
      ∀ o1 fs1, env.run ⟨["git", "rev-parse"], r.subdir_root ++ [d]⟩ fs = (0, o1, fs1) →
      ∀ ep op fsp, env.run ⟨["git", "pull"], r.subdir_root ++ [d]⟩ fs1 = (ep, op, fsp) →
        (r.get_git env pd fs ctr).res = .ok ()) ∧
    (strToLower rev = "tip" →
      ∀ ep op fsp, env.run ⟨["hg", "pull"], r.subdir_root ++ [d]⟩ fs = (ep, op, fsp) →
        (r.get_hg env pd fs ctr).res = .ok ()) ∧
    (strToLower rev = "head" →
      ∀ ei out fs1,
        env.run ⟨["svn", "info", "--show-item", "revision",
                  pathString (r.subdir_root ++ [d])], []⟩ fs = (ei, out, fs1) →
        out ≠ rev →
      ∀ ep op fsp, env.run ⟨["svn", "update"], r.subdir_root ++ [d]⟩ fs1 = (ep, op, fsp) →
        (r.get_svn env pd fs ctr).res = .ok ()) ∧
    (∀ pkg fsx ctrx,
      r.load_wrap env pkg fsx = .ok (some pd) →
      fsx.pathExists (r.subdir_root ++ [d, "meson.build"]) = true →
        r.resolve env pkg fsx ctrx = ⟨.ok d, fsx, ctrx, []⟩) := by
  refine ⟨?_, ?_, ?_, ?_⟩
  · intro hhead o1 fs1 hrp ep op fsp hpull
    simp [Resolver.get_git, PackageDefinition.get, hdir, hrev, hthere, hhead, hrp, hpull]
  · intro htip ep op fsp hpull
    simp [Resolver.get_hg, PackageDefinition.get, hdir, hrev, hthere, htip, hpull]
  · intro hhead ei out fs1 hinfo hne ep op fsp hup
    simp [Resolver.get_svn, PackageDefinition.get, Popen_safe,
          hdir, hrev, hthere, hhead, hinfo, hne, hup]
  · intro pkg fsx ctrx hload hmeson
    simp [Resolver.resolve, wrapDirectory, hload, hdir, hmeson]

/-- The environment of the C7 witness: `git pull`, `hg pull` and `svn update`
all fail with exit 1, the wrap file parses to a git declaration pinned to
`HEAD`, and every other command succeeds. -/
def envC7 : Env :=
  { baseEnv with
    parseIni := fun _ =>
      [("wrap-git", [("directory", "foo"), ("revision", "HEAD"), ("url", "u")])]
    run := fun c fs =>
      if c.argv = ["git", "pull"] ∨ c.argv = ["hg", "pull"] ∨ c.argv = ["svn", "update"]
      then (1, "", fs) else (0, "", fs) }

/-- The declaration of the C7 witness. -/
def pdC7 : PackageDefinition :=
  ⟨"git", [("directory", "foo"), ("revision", "HEAD"), ("url", "u")]⟩

/-- The filesystem of the C7 witness: an existing checkout with
`meson.build`, and the wrap file itself. -/
def fsC7 : FS :=
  ⟨[(["sub", "foo", "meson.build"], ⟨[1], false⟩),
    (["sub", "p.wrap"], ⟨[0], false⟩)],
   [["sub"], ["sub", "foo"]]⟩

/-- C7, witness: with every pull/update failing (exit 1), `get_git`, `get_hg`
and `get_svn` still succeed on the existing `HEAD`/`tip` checkout, and
`resolve` returns the directory untouched. -/
theorem C7_latest_pull_nonfatal_witness :
    ((⟨["sub"], WrapMode.default⟩ : Resolver).get_git envC7 pdC7 fsC7 0).res = .ok () ∧
    ((⟨["sub"], WrapMode.default⟩ : Resolver).get_hg envC7
        ⟨"hg", [("directory", "foo"), ("revision", "tip"), ("url", "u")]⟩ fsC7 0).res = .ok () ∧
    ((⟨["sub"], WrapMode.default⟩ : Resolver).get_svn envC7
        ⟨"svn", [("directory", "foo"), ("revision", "HEAD"), ("url", "u")]⟩ fsC7 0).res = .ok () ∧
    (⟨["sub"], WrapMode.default⟩ : Resolver).resolve envC7 "p" fsC7 3 =
      ⟨.ok "foo", fsC7, 3, []⟩ :=
  ⟨(C7_latest_pull_nonfatal envC7 ⟨["sub"], WrapMode.default⟩ pdC7 fsC7 0 "foo" "HEAD"
      rfl rfl rfl).1 (by decide) "" fsC7 rfl 1 "" fsC7 rfl,
   (C7_latest_pull_nonfatal envC7 ⟨["sub"], WrapMode.default⟩
      ⟨"hg", [("directory", "foo"), ("revision", "tip"), ("url", "u")]⟩ fsC7 0 "foo" "tip"
      rfl rfl rfl).2.1 (by decide) 1 "" fsC7 rfl,
   (C7_latest_pull_nonfatal envC7 ⟨["sub"], WrapMode.default⟩
      ⟨"svn", [("directory", "foo"), ("revision", "HEAD"), ("url", "u")]⟩ fsC7 0 "foo" "HEAD"
      rfl rfl rfl).2.2.1 (by decide) 0 "" fsC7 rfl (by decide) 1 "" fsC7 rfl,
   (C7_latest_pull_nonfatal envC7 ⟨["sub"], WrapMode.default⟩ pdC7 fsC7 0 "foo" "HEAD"
      rfl rfl rfl).2.2.2 "p" fsC7 3 rfl rfl⟩

end Wrap

/-! ## Filesystem lemmas -/

namespace Wrap

theorem find?_filter_of_key_true {l : List (Path × File)} {q : Path}
    {keep : Path × File → Bool} (h : ∀ e : Path × File, e.1 = q → keep e = true) :
    (l.filter keep).find? (fun e => decide (e.1 = q)) =
      l.find? (fun e => decide (e.1 = q)) := by
  induction l with
  | nil => rfl
  | cons a l ih =>
    by_cases ha : a.1 = q
    · have : keep a = true := h a ha
      simp [List.filter_cons, this, List.find?, ha]
    · rcases hk : keep a with _ | _
      · simp [List.filter_cons, hk, List.find?, ha, ih]
      · simp [List.filter_cons, hk, List.find?, ha, ih]

theorem find?_filter_of_key_false {l : List (Path × File)} {q : Path}
    {keep : Path × File → Bool} (h : ∀ e : Path × File, e.1 = q → keep e = false) :
    (l.filter keep).find? (fun e => decide (e.1 = q)) = none := by
  induction l with
  | nil => rfl
  | cons a l ih =>
    by_cases ha : a.1 = q
    · have : keep a = false := h a ha
      simp [List.filter_cons, this, ih]
    · rcases hk : keep a with _ | _
      · simp [List.filter_cons, hk, ih]
      · simp [List.filter_cons, hk, List.find?, ha, ih]

@[simp] theorem FS.getFile_writeFile_self (fs : FS) (p : Path) (f : File) :
    (fs.writeFile p f).getFile p = some f := by
  simp [FS.writeFile, FS.getFile, List.find?]

theorem FS.getFile_writeFile_ne (fs : FS) {p q : Path} (f : File) (h : q ≠ p) :
    (fs.writeFile p f).getFile q = fs.getFile q := by
  unfold FS.writeFile FS.getFile
  simp only [List.find?]
  have hpq : (decide (p = q)) = false := by simp [Ne.symm h]
  simp only [hpq]
  rw [find?_filter_of_key_true]
  intro e he
  simp [he, h]

@[simp] theorem FS.getFile_mkdirs (fs : FS) (p q : Path) :
    (fs.mkdirs p).getFile q = fs.getFile q := rfl

@[simp] theorem FS.dirs_writeFile (fs : FS) (p : Path) (f : File) :
    (fs.writeFile p f).dirs = fs.dirs := rfl

@[simp] theorem FS.dirs_mkdirs (fs : FS) (p : Path) :
    (fs.mkdirs p).dirs = ancestors p ++ [p] ++ fs.dirs := rfl

theorem getFile_installFold_of_not_mem (dest : Path) (entries : List (Path × File))
    (fs : FS) {q : Path} (h : ∀ e ∈ entries, dest ++ e.1 ≠ q) :
    (entries.foldl (installStep dest) fs).getFile q = fs.getFile q := by
  induction entries generalizing fs with
  | nil => rfl
  | cons a es ih =>
    rw [List.foldl_cons, ih _ (fun e he => h e (List.mem_cons_of_mem a he))]
    unfold installStep
    rw [FS.getFile_writeFile_ne _ _ (fun hq => h a (List.mem_cons_self a es) hq.symm)]
    rfl

theorem getFile_installFold_of_mem (dest : Path) (entries : List (Path × File))
    (fs : FS) {rel : Path} {f : File}
    (hmem : (rel, f) ∈ entries) (hnd : (entries.map Prod.fst).Nodup) :
    (entries.foldl (installStep dest) fs).getFile (dest ++ rel) = some f := by
  induction entries generalizing fs with
  | nil => cases hmem
  | cons a es ih =>
    rcases List.mem_cons.mp hmem with heq | hmem'
    · subst heq
      rw [List.foldl_cons]
      rw [getFile_installFold_of_not_mem]
      · simp [installStep]
      · intro e he hq
        have hne : e.1 ≠ rel := by
          intro h1
        -- a.fst = rel would be duplicated in the key list
          have : rel ∈ es.map Prod.fst := by
            exact List.mem_map.mpr ⟨e, he, h1⟩
          exact (List.nodup_cons.mp hnd).1 this
        exact hne (List.append_cancel_left hq)
    · rw [List.foldl_cons]
      exact ih _ hmem' (List.nodup_cons.mp hnd).2
  
theorem dirs_installFold_mono (dest : Path) (entries : List (Path × File))
    (fs : FS) {q : Path} (h : q ∈ fs.dirs) :
    q ∈ (entries.foldl (installStep dest) fs).dirs := by
  induction entries generalizing fs with
  | nil => exact h
  | cons a es ih =>
    rw [List.foldl_cons]
    exact ih _ (by simp [installStep]; right; right; exact h)

theorem FS.getFile_removeTree_of_prefix (fs : FS) {p q : Path}
    (h : p.isPrefixOf q = true) : (fs.removeTree p).getFile q = none := by
  unfold FS.removeTree FS.getFile
  rw [find?_filter_of_key_false]
  · rfl
  · intro e he; simp [he, h]

theorem FS.getFile_removeTree_of_not_prefix (fs : FS) {p q : Path}
    (h : p.isPrefixOf q = false) : (fs.removeTree p).getFile q = fs.getFile q := by
  unfold FS.removeTree FS.getFile
  rw [find?_filter_of_key_true]
  intro e he; simp [he, h]

theorem FS.mem_dirs_removeTree (fs : FS) {p q : Path}
    (hq : q ∈ fs.dirs) (h : p.isPrefixOf q = false) :
    q ∈ (fs.removeTree p).dirs := by
  unfold FS.removeTree
  simp only [List.mem_filter]
  exact ⟨hq, by simp [h]⟩

end Wrap

/-! ## C10: the lead_directory_missing dispatch -/

namespace Wrap

theorem pdGet_congr_ldm {pd₁ pd₂ : PackageDefinition}
    (h : ∀ k, k ≠ "lead_directory_missing" →
        lookupVal pd₁.values k = lookupVal pd₂.values k)
    {k : String} (hk : k ≠ "lead_directory_missing") :
    pd₁.get k = pd₂.get k := by
  simp [PackageDefinition.get, h k hk]

theorem check_hash_congr_ldm (env : Env) {pd₁ pd₂ : PackageDefinition}
    (h : ∀ k, k ≠ "lead_directory_missing" →
        lookupVal pd₁.values k = lookupVal pd₂.values k)
    {what : String} (hh : what ++ "_hash" ≠ "lead_directory_missing")
    (path : Path) (fs : FS) :
    Resolver.check_hash env pd₁ what path fs = Resolver.check_hash env pd₂ what path fs := by
  unfold Resolver.check_hash
  rw [pdGet_congr_ldm h hh]

theorem download_congr_ldm (env : Env) (r : Resolver) {pd₁ pd₂ : PackageDefinition}
    (h : ∀ k, k ≠ "lead_directory_missing" →
        lookupVal pd₁.values k = lookupVal pd₂.values k)
    {what : String} (hu : what ++ "_url" ≠ "lead_directory_missing")
    (hh : what ++ "_hash" ≠ "lead_directory_missing")
    (ofname : Path) (fs : FS) (ctr : Nat) :
    Resolver.download env r pd₁ what ofname fs ctr =
      Resolver.download env r pd₂ what ofname fs ctr := by
  unfold Resolver.download
  rw [pdGet_congr_ldm h hu, pdGet_congr_ldm h hh]

theorem get_file_internal_congr_ldm (env : Env) (r : Resolver)
    {pd₁ pd₂ : PackageDefinition}
    (h : ∀ k, k ≠ "lead_directory_missing" →
        lookupVal pd₁.values k = lookupVal pd₂.values k)
    {what : String} (hf : what ++ "_filename" ≠ "lead_directory_missing")
    (hu : what ++ "_url" ≠ "lead_directory_missing")
    (hh : what ++ "_hash" ≠ "lead_directory_missing")
    (fs : FS) (ctr : Nat) :
    Resolver.get_file_internal env r pd₁ what fs ctr =
      Resolver.get_file_internal env r pd₂ what fs ctr := by
  unfold Resolver.get_file_internal
  rw [pdGet_congr_ldm h hf]
  cases pd₂.get (what ++ "_filename") with
  | error e => rfl
  | ok filename =>
    simp only [check_hash_congr_ldm env h hh, download_congr_ldm env r h hu hh]

theorem apply_patch_congr_ldm (env : Env) (r : Resolver)
    {pd₁ pd₂ : PackageDefinition}
    (h : ∀ k, k ≠ "lead_directory_missing" →
        lookupVal pd₁.values k = lookupVal pd₂.values k)
    (fs : FS) (ctr : Nat) :
    Resolver.apply_patch env r pd₁ fs ctr = Resolver.apply_patch env r pd₂ fs ctr := by
  unfold Resolver.apply_patch
  rw [get_file_internal_congr_ldm env r h (by decide) (by decide) (by decide)]

theorem has_patch_congr_ldm {pd₁ pd₂ : PackageDefinition}
    (h : ∀ k, k ≠ "lead_directory_missing" →
        lookupVal pd₁.values k = lookupVal pd₂.values k) :
    pd₁.has_patch = pd₂.has_patch := by
  simp [PackageDefinition.has_patch, h "patch_url" (by decide)]

/-- C10: in `get_file` the choice between creating the target directory and
extracting into it versus extracting into the subprojects root is decided
solely by the presence of the `lead_directory_missing` key: two declarations
agreeing on everything except that key's value (both having it, with any
values whatsoever, e.g. an empty string or `'false'`) drive `get_file`
identically, the key being present makes the freshly created target
directory the extraction destination, and the key being absent makes the
subprojects root the destination. -/
theorem C10_lead_directory_missing (env : Env) (r : Resolver) (fs : FS) (ctr : Nat) :
    (∀ pd₁ pd₂ : PackageDefinition,
      (∀ k, k ≠ "lead_directory_missing" →
          lookupVal pd₁.values k = lookupVal pd₂.values k) →
      (lookupVal pd₁.values "lead_directory_missing").isSome
        = (lookupVal pd₂.values "lead_directory_missing").isSome →
      r.get_file env pd₁ fs ctr = r.get_file env pd₂ fs ctr) ∧
    (∀ pd v d path,
      lookupVal pd.values "lead_directory_missing" = some v →
      lookupVal pd.values "directory" = some d →
      pd.has_patch = false →
      r.get_file_internal env pd "source" fs ctr = ⟨.ok path, fs, ctr, []⟩ →
      fs.pathExists (r.subdir_root ++ [d]) = false →
      ∀ fs3, unpack_archive env { fs with dirs := (r.subdir_root ++ [d]) :: fs.dirs }
               path (r.subdir_root ++ [d]) = .ok fs3 →
        r.get_file env pd fs ctr = ⟨.ok (), fs3, ctr, []⟩) ∧
    (∀ pd d path,
      lookupVal pd.values "lead_directory_missing" = none →
      lookupVal pd.values "directory" = some d →
      pd.has_patch = false →
      r.get_file_internal env pd "source" fs ctr = ⟨.ok path, fs, ctr, []⟩ →
      ∀ fs3, unpack_archive env fs path r.subdir_root = .ok fs3 →
        r.get_file env pd fs ctr = ⟨.ok (), fs3, ctr, []⟩) := by
  refine ⟨?_, ?_, ?_⟩
  · intro pd₁ pd₂ h hsome
    unfold Resolver.get_file
    rw [get_file_internal_congr_ldm env r h (by decide) (by decide) (by decide)]
    simp only [pdGet_congr_ldm h (show "directory" ≠ "lead_directory_missing" by decide),
               has_patch_congr_ldm h, apply_patch_congr_ldm env r h]
    cases h1 : lookupVal pd₁.values "lead_directory_missing" with
    | some v₁ =>
      cases h2 : lookupVal pd₂.values "lead_directory_missing" with
      | some v₂ => simp only [h1, h2]
      | none => rw [h1, h2] at hsome; simp at hsome
    | none =>
      cases h2 : lookupVal pd₂.values "lead_directory_missing" with
      | some v₂ => rw [h1, h2] at hsome; simp at hsome
      | none => simp only [h1, h2]
  · intro pd v d path hkey hdir hnopatch hfi hnx fs3 hunp
    simp [Resolver.get_file, hfi, PackageDefinition.get, hdir, hkey, FS.mkdir,
          hnx, hunp, hnopatch]
  · intro pd d path hkey hdir hnopatch hfi fs3 hunp
    simp [Resolver.get_file, hfi, PackageDefinition.get, hdir, hkey, hunp, hnopatch]

end Wrap

namespace Wrap

/-- The resolver used by the remaining witnesses: subprojects root `sub`,
downloads allowed. -/
def rW : Resolver := ⟨["sub"], WrapMode.default⟩

/-- The environment of the C10 witness: a cached source archive `[5]`
hashing to `H` and containing one file. -/
def envC10 : Env :=
  { baseEnv with
    sha := fun b => if b = [5] then "H" else "X"
    parseArchive := fun b =>
      if b = [5] then some [(["inner.txt"], ⟨[6], false⟩)] else none }

/-- The filesystem of the C10 witness: the source archive is cached. -/
def fsC10 : FS :=
  ⟨[(["sub", "packagecache", "s.tar"], ⟨[5], false⟩)],
   [["sub"], ["sub", "packagecache"]]⟩

/-- C10 witness declaration with `lead_directory_missing` set to the empty
string. -/
def pdC10a : PackageDefinition :=
  ⟨"file", [("lead_directory_missing", ""), ("source_filename", "s.tar"),
            ("source_hash", "H"), ("directory", "foo")]⟩

/-- C10 witness declaration with `lead_directory_missing` set to `false`. -/
def pdC10b : PackageDefinition :=
  ⟨"file", [("lead_directory_missing", "false"), ("source_filename", "s.tar"),
            ("source_hash", "H"), ("directory", "foo")]⟩

/-- C10 witness declaration without `lead_directory_missing`. -/
def pdC10n : PackageDefinition :=
  ⟨"file", [("source_filename", "s.tar"), ("source_hash", "H"),
            ("directory", "foo")]⟩

/-- The filesystem after the C10 extraction into the created target. -/
def fs3C10b : FS :=
  ((unpack_archive envC10 { fsC10 with dirs := ["sub", "foo"] :: fsC10.dirs }
      ["sub", "packagecache", "s.tar"] ["sub", "foo"]).toOption).getD fsC10

/-- The filesystem after the C10 extraction into the subprojects root. -/
def fs3C10c : FS :=
  ((unpack_archive envC10 fsC10 ["sub", "packagecache", "s.tar"] ["sub"]).toOption).getD fsC10

/-- C10, witness: the empty-string and `'false'` values of
`lead_directory_missing` drive `get_file` identically; with the key present
extraction lands in the created target directory, without it in the
subprojects root. -/
theorem C10_lead_directory_missing_witness :
    rW.get_file envC10 pdC10a fsC10 0 = rW.get_file envC10 pdC10b fsC10 0 ∧
    rW.get_file envC10 pdC10a fsC10 0 = ⟨.ok (), fs3C10b, 0, []⟩ ∧
    rW.get_file envC10 pdC10n fsC10 0 = ⟨.ok (), fs3C10c, 0, []⟩ :=
  ⟨(C10_lead_directory_missing envC10 rW fsC10 0).1 pdC10a pdC10b
      (by
        intro k hk
        have hne : ("lead_directory_missing" = k) = False := by simp [Ne.symm hk]
        simp [pdC10a, pdC10b, lookupVal, List.find?, hne])
      rfl,
   (C10_lead_directory_missing envC10 rW fsC10 0).2.1 pdC10a "" "foo"
      ["sub", "packagecache", "s.tar"] rfl rfl rfl rfl rfl fs3C10b rfl,
   (C10_lead_directory_missing envC10 rW fsC10 0).2.2 pdC10n "foo"
      ["sub", "packagecache", "s.tar"] rfl rfl rfl rfl fs3C10c rfl⟩

end Wrap

/-! ## C2: download writes only to a temp file and renames after verification -/

namespace Wrap

@[simp] theorem FS.getFile_removeFile_self (fs : FS) (p : Path) :
    (fs.removeFile p).getFile p = none := by
  unfold FS.removeFile FS.getFile
  rw [find?_filter_of_key_false]
  · rfl
  · intro e he; simp [he]

theorem FS.getFile_removeFile_ne (fs : FS) {p q : Path} (h : q ≠ p) :
    (fs.removeFile p).getFile q = fs.getFile q := by
  unfold FS.removeFile FS.getFile
  rw [find?_filter_of_key_true]
  intro e he; simp [he, h]

theorem writeStates_getFile_none {q tmppath : Path} (hne : tmppath ≠ q)
    (blocks : List Bytes) (acc : Bytes) (fs : FS) (hq : fs.getFile q = none) :
    ∀ s ∈ writeStates fs tmppath acc blocks, s.getFile q = none := by
  induction blocks generalizing acc with
  | nil =>
    intro s hs
    simp only [writeStates, List.mem_singleton] at hs
    subst hs
    rw [FS.getFile_writeFile_ne _ _ (Ne.symm hne)]
    exact hq
  | cons b bs ih =>
    intro s hs
    simp only [writeStates, List.mem_cons] at hs
    rcases hs with hs | hs
    · subst hs
      rw [FS.getFile_writeFile_ne _ _ (Ne.symm hne)]
      exact hq
    · exact ih (acc ++ b) s hs

/-- C2: on a cache miss, `download` streams the fetched bytes only into the
fresh temporary file while feeding the digest, so no filesystem state it
passes through — including every interrupted prefix of the read loop — has a
file at the final cache path; on digest mismatch the temporary file is
removed and the hash-mismatch error is raised with the final cache path
still empty; and only on digest match is the temporary file renamed onto the
final cache path, which then holds exactly the verified bytes. -/
theorem C2_download_atomic
    (env : Env) (r : Resolver) (pd : PackageDefinition) (what : String)
    (ofname : Path) (fs : FS) (ctr : Nat) (srcurl expected : String)
    (hurl : lookupVal pd.values (what ++ "_url") = some srcurl)
    (hhash : lookupVal pd.values (what ++ "_hash") = some expected)
    (hmode : r.wrap_mode ≠ WrapMode.nodownload)
    (hfresh : fs.getFile ofname = none)
    (htmp : r.cachedir ++ [env.tmp ctr] ≠ ofname) :
    (∀ s ∈ Resolver.get_data_states env r srcurl fs ctr, s.getFile ofname = none) ∧
    (env.sha ((env.net srcurl).foldl (fun a b => a ++ b) []) ≠ expected →
      (r.download env pd what ofname fs ctr).res
          = .error (.hashMismatch what expected
              (env.sha ((env.net srcurl).foldl (fun a b => a ++ b) []))) ∧
      (r.download env pd what ofname fs ctr).fs.getFile ofname = none ∧
      (r.download env pd what ofname fs ctr).fs.getFile
          (r.cachedir ++ [env.tmp ctr]) = none) ∧
    (env.sha ((env.net srcurl).foldl (fun a b => a ++ b) []) = expected →
      (r.download env pd what ofname fs ctr).res = .ok () ∧
      (r.download env pd what ofname fs ctr).fs.getFile ofname
          = some ⟨(env.net srcurl).foldl (fun a b => a ++ b) [], false⟩ ∧
      (r.download env pd what ofname fs ctr).fs.getFile
          (r.cachedir ++ [env.tmp ctr]) = none) := by
  have hcd : r.check_can_download = .ok () := by
    simp [Resolver.check_can_download, hmode]
  refine ⟨?_, ?_, ?_⟩
  · exact writeStates_getFile_none htmp (env.net srcurl) [] fs hfresh
  · intro hne
    simp only [Resolver.download, hcd, PackageDefinition.get, hurl, hhash,
               Resolver.get_data]
    rw [if_pos hne]
    refine ⟨rfl, ?_, ?_⟩
    · show ((fs.writeFile _ _).removeFile _).getFile ofname = none
      rw [FS.getFile_removeFile_ne _ (Ne.symm htmp),
          FS.getFile_writeFile_ne _ _ (Ne.symm htmp)]
      exact hfresh
    · exact FS.getFile_removeFile_self _ _
  · intro heq
    simp only [Resolver.download, hcd, PackageDefinition.get, hurl, hhash,
               Resolver.get_data]
    rw [if_neg (show ¬ (env.sha ((env.net srcurl).foldl (fun a b => a ++ b) [])
                         ≠ expected) from fun hc => hc heq)]
    refine ⟨rfl, ?_, ?_⟩
    · simp only [FS.rename, FS.getFile_writeFile_self]
    · simp only [FS.rename, FS.getFile_writeFile_self]
      rw [FS.getFile_writeFile_ne _ _ htmp]
      exact FS.getFile_removeFile_self _ _

end Wrap

namespace Wrap

/-- The environment of the C2 witness: the URL `u` serves two blocks whose
concatenation hashes to `H`. -/
def envC2 : Env :=
  { baseEnv with
    sha := fun b => if b = [1, 2] then "H" else "X"
    net := fun _ => [[1], [2]] }

/-- The declaration of the C2 witness: the source hash matches the served
bytes, the patch hash does not. -/
def pdC2 : PackageDefinition :=
  ⟨"file", [("source_url", "u"), ("source_hash", "H"),
            ("patch_url", "u"), ("patch_hash", "ZZZ")]⟩

/-- The filesystem of the C2 witness: an empty cache directory. -/
def fsC2 : FS := ⟨[], [["sub"], ["sub", "packagecache"]]⟩

/-- C2, witness: at the concrete inputs the matching download installs the
verified bytes at the final cache path, the mismatching download raises and
leaves nothing there, and a mid-download state (first block written) has
nothing at the final cache path either. -/
theorem C2_download_atomic_witness :
    (rW.download envC2 pdC2 "source" ["sub", "packagecache", "out.tar"] fsC2 0).res
        = .ok () ∧
    (rW.download envC2 pdC2 "source" ["sub", "packagecache", "out.tar"] fsC2 0).fs.getFile
        ["sub", "packagecache", "out.tar"] = some ⟨[1, 2], false⟩ ∧
    (rW.download envC2 pdC2 "patch" ["sub", "packagecache", "out.tar"] fsC2 0).res
        = .error (.hashMismatch "patch" "ZZZ" "H") ∧
    (rW.download envC2 pdC2 "patch" ["sub", "packagecache", "out.tar"] fsC2 0).fs.getFile
        ["sub", "packagecache", "out.tar"] = none ∧
    (fsC2.writeFile ["sub", "packagecache", "tmp0"] ⟨[1], false⟩).getFile
        ["sub", "packagecache", "out.tar"] = none :=
  ⟨((C2_download_atomic envC2 rW pdC2 "source" ["sub", "packagecache", "out.tar"]
        fsC2 0 "u" "H" rfl rfl (by decide) rfl (by decide)).2.2 rfl).1,
   ((C2_download_atomic envC2 rW pdC2 "source" ["sub", "packagecache", "out.tar"]
        fsC2 0 "u" "H" rfl rfl (by decide) rfl (by decide)).2.2 rfl).2.1,
   ((C2_download_atomic envC2 rW pdC2 "patch" ["sub", "packagecache", "out.tar"]
        fsC2 0 "u" "ZZZ" rfl rfl (by decide) rfl (by decide)).2.1 (by decide)).1,
   ((C2_download_atomic envC2 rW pdC2 "patch" ["sub", "packagecache", "out.tar"]
        fsC2 0 "u" "ZZZ" rfl rfl (by decide) rfl (by decide)).2.1 (by decide)).2.1,
   (C2_download_atomic envC2 rW pdC2 "source" ["sub", "packagecache", "out.tar"]
        fsC2 0 "u" "H" rfl rfl (by decide) rfl (by decide)).1
     (fsC2.writeFile ["sub", "packagecache", "tmp0"] ⟨[1], false⟩) (by decide)⟩

end Wrap

/-! ## C3: the download-disabled check -/

namespace Wrap

/-- The environment of the C3 counterexample: the wrap file declares a
file-kind dependency whose source archive is already in the cache and
contains `foo/meson.build`; the subprojects root is not a git work tree. -/
def envC3 : Env :=
  { baseEnv with
    sha := fun b => if b = [1] then "H1" else "X"
    parseIni := fun b =>
      if b = [0] then
        [("wrap-file", [("directory", "foo"), ("source_filename", "foo.tar"),
                        ("source_hash", "H1")])]
      else []
    parseArchive := fun b =>
      if b = [1] then some [(["foo", "meson.build"], ⟨[2], false⟩)] else none
    run := fun _ fs => (1, "", fs) }

/-- The filesystem of the C3 counterexample: wrap file present, source
archive cached, target directory absent. -/
def fsC3 : FS :=
  ⟨[(["sub", "foo.wrap"], ⟨[0], false⟩),
    (["sub", "packagecache", "foo.tar"], ⟨[1], false⟩)],
   [["sub"], ["sub", "packagecache"]]⟩

/-- C3, counterexample: with download mode `nodownload`, a file-kind
declaration whose archive is already cached, and an absent target directory,
`resolve` does not fail with the download-disabled error — it succeeds,
extracting the cached archive. -/
theorem C3_counterexample :
    ((⟨["sub"], WrapMode.nodownload⟩ : Resolver).resolve envC3 "foo" fsC3 0).res
        = .ok "foo" ∧
    ((⟨["sub"], WrapMode.nodownload⟩ : Resolver).resolve envC3 "foo" fsC3 0).res
        ≠ .error .downloadDisabled := by
  constructor
  · rfl
  · decide

/-- C3 (amended): when the target directory does not exist and download mode
forbids network acquisition, `resolve` fails with the download-disabled
error before any acquisition strategy runs for the git, hg and svn kinds;
for the file kind the check lives inside `download`, so the error is raised
only on a cache miss, and a fully cached file declaration is resolved
without it (besides the submodule path, which is also exempt). -/
theorem C3_download_disabled (env : Env) (r : Resolver) (pkg : String) (fs : FS)
    (ctr : Nat) (pd : PackageDefinition) (d : String) (o1 : String)
    (hmode : r.wrap_mode = WrapMode.nodownload)
    (hload : r.load_wrap env pkg fs = .ok (some pd))
    (hdir : lookupVal pd.values "directory" = some d)
    (hmeson : fs.pathExists (r.subdir_root ++ [d, "meson.build"]) = false)
    (hsub : env.run ⟨["git", "-C", pathString r.subdir_root, "rev-parse"], []⟩ fs
              = (1, o1, fs))
    (hnodir : fs.pathExists (r.subdir_root ++ [d]) = false) :
    ((pd.type = "git" ∨ pd.type = "hg" ∨ pd.type = "svn") →
      (r.resolve env pkg fs ctr).res = .error .downloadDisabled) ∧
    (∀ filename, pd.type = "file" →
      lookupVal pd.values "source_filename" = some filename →
      fs.pathExists (r.cachedir ++ [filename]) = false →
      fs.isDir r.cachedir = true →
      (r.resolve env pkg fs ctr).res = .error .downloadDisabled) := by
  constructor
  · intro htype
    have hnotfile : (pd.type = "file") = False := by
      rcases htype with h | h | h <;> simp [h]
    rcases htype with h | h | h <;>
      simp [Resolver.resolve, Resolver.acquire, wrapDirectory, hload, hdir, hmeson,
            Resolver.resolve_git_submodule, hsub, hnodir, hnotfile, h,
            Resolver.check_can_download, hmode]
  · intro filename htype hfn hmiss hcdir
    simp [Resolver.resolve, Resolver.acquire, wrapDirectory, hload, hdir, hmeson,
          Resolver.resolve_git_submodule,
          hsub, hnodir, htype, Resolver.get_file, Resolver.get_file_internal,
          PackageDefinition.get, hfn, hmiss, hcdir, Resolver.download,
          Resolver.check_can_download, hmode]

/-- The environment of the C3 amended-theorem witness: a git wrap file for
`g` and a file wrap file with an uncached archive for `f`. -/
def envC3w : Env :=
  { baseEnv with
    parseIni := fun b =>
      if b = [0] then [("wrap-git", [("directory", "gd"), ("revision", "HEAD"),
                                     ("url", "u")])]
      else if b = [1] then [("wrap-file", [("directory", "fd"),
                                           ("source_filename", "nf.tar"),
                                           ("source_hash", "H"),
                                           ("source_url", "u")])]
      else []
    run := fun _ fs => (1, "", fs) }

/-- The filesystem of the C3 amended-theorem witness. -/
def fsC3w : FS :=
  ⟨[(["sub", "g.wrap"], ⟨[0], false⟩), (["sub", "f.wrap"], ⟨[1], false⟩)],
   [["sub"], ["sub", "packagecache"]]⟩

/-- C3, witness for the amended theorem: under `nodownload` both the git
declaration and the cache-missing file declaration make `resolve` fail with
the download-disabled error. -/
theorem C3_download_disabled_witness :
    ((⟨["sub"], WrapMode.nodownload⟩ : Resolver).resolve envC3w "g" fsC3w 0).res
        = .error .downloadDisabled ∧
    ((⟨["sub"], WrapMode.nodownload⟩ : Resolver).resolve envC3w "f" fsC3w 0).res
        = .error .downloadDisabled :=
  ⟨(C3_download_disabled envC3w ⟨["sub"], WrapMode.nodownload⟩ "g" fsC3w 0
      ⟨"git", [("directory", "gd"), ("revision", "HEAD"), ("url", "u")]⟩ "gd" ""
      rfl rfl rfl rfl rfl rfl).1 (Or.inl rfl),
   (C3_download_disabled envC3w ⟨["sub"], WrapMode.nodownload⟩ "f" fsC3w 0
      ⟨"file", [("directory", "fd"), ("source_filename", "nf.tar"),
                ("source_hash", "H"), ("source_url", "u")]⟩ "fd" ""
      rfl rfl rfl rfl rfl rfl).2 "nf.tar" rfl rfl rfl rfl⟩

end Wrap

/-! ## C6: pinned-revision checkout fallback -/

namespace Wrap

/-- The environment of the C6 counterexample: `hg checkout v2` succeeds only
after `hg pull` has run (the pull materializes the revision, recorded here as
the marker directory `pulled`). -/
def envC6 : Env :=
  { baseEnv with run := fun c fs =>
      if c.argv = ["hg", "checkout", "v2"] then
        (if fs.isDir ["pulled"] then (0, "", fs) else (1, "", fs))
      else if c.argv = ["hg", "pull"] then
        (0, "", { fs with dirs := ["pulled"] :: fs.dirs })
      else (0, "", fs) }

/-- The hg declaration of the C6 counterexample, pinned to revision `v2`. -/
def pdC6 : PackageDefinition :=
  ⟨"hg", [("directory", "m"), ("revision", "v2"), ("url", "u")]⟩

/-- C6 counterexample filesystem without an existing checkout. -/
def fsC6 : FS := ⟨[], [["sub"]]⟩

/-- C6 counterexample filesystem with an existing checkout at `sub/m`. -/
def fsC6m : FS := ⟨[], [["sub"], ["sub", "m"]]⟩

/-- C6, counterexample: after a fresh hg clone, a failing direct checkout of
the pinned revision is fatal — no pull and no retry happen, even though in
this very environment a pull followed by a retried checkout would succeed
(as the pre-existing-checkout path of the same strategy demonstrates, via a
plain `hg pull` that does not name the revision). -/
theorem C6_counterexample :
    (rW.get_hg envC6 pdC6 fsC6 0).res
        = .error (.calledProcessError ["hg", "checkout", "v2"]) ∧
    (rW.get_hg envC6 pdC6 fsC6 0).tr
        = [.runC ⟨["hg", "clone", "u", "m"], ["sub"]⟩,
           .runC ⟨["hg", "checkout", "v2"], ["sub", "m"]⟩] ∧
    (rW.get_hg envC6 pdC6 fsC6m 0).res = .ok () ∧
    (rW.get_hg envC6 pdC6 fsC6m 0).tr
        = [.runC ⟨["hg", "checkout", "v2"], ["sub", "m"]⟩,
           .runC ⟨["hg", "pull"], ["sub", "m"]⟩,
           .runC ⟨["hg", "checkout", "v2"], ["sub", "m"]⟩] := by
  refine ⟨rfl, rfl, rfl, rfl⟩

/-- C6 (amended): for Git declarations with a pinned revision, both after a
fresh clone and for a pre-existing checkout, a failing direct checkout is
followed by an explicit `git fetch <url> <revision>` and a retried checkout,
and the strategy succeeds when the retry succeeds; for Mercurial only the
pre-existing-checkout path has the fallback, which is a plain `hg pull` that
does not name the revision, and after a fresh hg clone a failing checkout is
fatal with no fetch and no retry. -/
theorem C6_pinned_revision_fallback
    (env : Env) (r : Resolver) (pd : PackageDefinition) (fs : FS) (ctr : Nat)
    (d rev url : String)
    (hdir : lookupVal pd.values "directory" = some d)
    (hrev : lookupVal pd.values "revision" = some rev)
    (hurl : lookupVal pd.values "url" = some url) :
    (strToLower rev ≠ "head" →
     fs.isDir (r.subdir_root ++ [d]) = true →
     ∀ o1 fs1, env.run ⟨["git", "rev-parse"], r.subdir_root ++ [d]⟩ fs = (0, o1, fs1) →
     ∀ e2 o2 fs2, env.run ⟨["git", "checkout", rev], r.subdir_root ++ [d]⟩ fs1
         = (e2, o2, fs2) → e2 ≠ 0 →
     ∀ o3 fs3, env.run ⟨["git", "fetch", url, rev], r.subdir_root ++ [d]⟩ fs2
         = (0, o3, fs3) →
     ∀ o4 fs4, env.run ⟨["git", "checkout", rev], r.subdir_root ++ [d]⟩ fs3
         = (0, o4, fs4) →
       r.get_git env pd fs ctr = ⟨.ok (), fs4, ctr,
         [.runC ⟨["git", "rev-parse"], r.subdir_root ++ [d]⟩,
          .runC ⟨["git", "checkout", rev], r.subdir_root ++ [d]⟩,
          .runC ⟨["git", "fetch", url, rev], r.subdir_root ++ [d]⟩,
          .runC ⟨["git", "checkout", rev], r.subdir_root ++ [d]⟩]⟩) ∧
    (strToLower rev ≠ "head" →
     fs.isDir (r.subdir_root ++ [d]) = false →
     lookupVal pd.values "clone-recursive" = none →
     lookupVal pd.values "push-url" = none →
     ∀ oc fsA, env.run ⟨["git", "clone", url, d], r.subdir_root⟩ fs = (0, oc, fsA) →
     ∀ e2 o2 fs2, env.run ⟨["git", "checkout", rev], r.subdir_root ++ [d]⟩ fsA
         = (e2, o2, fs2) → e2 ≠ 0 →
     ∀ o3 fs3, env.run ⟨["git", "fetch", url, rev], r.subdir_root ++ [d]⟩ fs2
         = (0, o3, fs3) →
     ∀ o4 fs4, env.run ⟨["git", "checkout", rev], r.subdir_root ++ [d]⟩ fs3
         = (0, o4, fs4) →
       r.get_git env pd fs ctr = ⟨.ok (), fs4, ctr,
         [.runC ⟨["git", "clone", url, d], r.subdir_root⟩,
          .runC ⟨["git", "checkout", rev], r.subdir_root ++ [d]⟩,
          .runC ⟨["git", "fetch", url, rev], r.subdir_root ++ [d]⟩,
          .runC ⟨["git", "checkout", rev], r.subdir_root ++ [d]⟩]⟩) ∧
    (strToLower rev ≠ "tip" →
     fs.isDir (r.subdir_root ++ [d]) = true →
     ∀ e2 o2 fs2, env.run ⟨["hg", "checkout", rev], r.subdir_root ++ [d]⟩ fs
         = (e2, o2, fs2) → e2 ≠ 0 →
     ∀ o3 fs3, env.run ⟨["hg", "pull"], r.subdir_root ++ [d]⟩ fs2 = (0, o3, fs3) →
     ∀ o4 fs4, env.run ⟨["hg", "checkout", rev], r.subdir_root ++ [d]⟩ fs3
         = (0, o4, fs4) →
       r.get_hg env pd fs ctr = ⟨.ok (), fs4, ctr,
         [.runC ⟨["hg", "checkout", rev], r.subdir_root ++ [d]⟩,
          .runC ⟨["hg", "pull"], r.subdir_root ++ [d]⟩,
          .runC ⟨["hg", "checkout", rev], r.subdir_root ++ [d]⟩]⟩) ∧
    (strToLower rev ≠ "tip" →
     fs.isDir (r.subdir_root ++ [d]) = false →
     ∀ oc fsA, env.run ⟨["hg", "clone", url, d], r.subdir_root⟩ fs = (0, oc, fsA) →
     ∀ e2 o2 fs2, env.run ⟨["hg", "checkout", rev], r.subdir_root ++ [d]⟩ fsA
         = (e2, o2, fs2) → e2 ≠ 0 →
       r.get_hg env pd fs ctr
         = ⟨.error (.calledProcessError ["hg", "checkout", rev]), fs2, ctr,
            [.runC ⟨["hg", "clone", url, d], r.subdir_root⟩,
             .runC ⟨["hg", "checkout", rev], r.subdir_root ++ [d]⟩]⟩) := by
  refine ⟨?_, ?_, ?_, ?_⟩
  · intro hne hthere o1 fs1 h1 e2 o2 fs2 h2 he2 o3 fs3 h3 o4 fs4 h4
    simp [Resolver.get_git, PackageDefinition.get, hdir, hrev, hurl, hthere, hne,
          gitCheckoutFallback, h1, h2, he2, h3, h4]
  · intro hne hnd hcr hpu oc fsA hc e2 o2 fs2 h2 he2 o3 fs3 h3 o4 fs4 h4
    have hrec : (strToLower ((lookupVal pd.values "clone-recursive").getD "")
                  = "true") = False := by
      rw [hcr]; simp [strToLower]
    simp [Resolver.get_git, PackageDefinition.get, hdir, hrev, hurl, hnd, hrec,
          hc, gitCheckoutFallback, h2, he2, h3, h4, hne, gitPushUrlStep, hpu]
  · intro hne hthere e2 o2 fs2 h2 he2 o3 fs3 h3 o4 fs4 h4
    simp [Resolver.get_hg, PackageDefinition.get, hdir, hrev, hthere, hne,
          h2, he2, h3, h4]
  · intro hne hnd oc fsA hc e2 o2 fs2 h2 he2
    simp [Resolver.get_hg, PackageDefinition.get, hdir, hrev, hurl, hnd, hc,
          hne, h2, he2]

/-- The environment of the C6 amended-theorem witness for git: checkout of
`v2` succeeds only after the explicit fetch (marker directory `fetched`). -/
def envC6g : Env :=
  { baseEnv with run := fun c fs =>
      if c.argv = ["git", "checkout", "v2"] then
        (if fs.isDir ["fetched"] then (0, "", fs) else (1, "", fs))
      else if c.argv = ["git", "fetch", "u", "v2"] then
        (0, "", { fs with dirs := ["fetched"] :: fs.dirs })
      else (0, "", fs) }

/-- The git declaration of the C6 witness, pinned to `v2`. -/
def pdC6g : PackageDefinition :=
  ⟨"git", [("directory", "gd"), ("revision", "v2"), ("url", "u")]⟩

/-- The filesystem after the C6 witness fetch marker is set. -/
def fsC6f : FS := ⟨[], [["fetched"], ["sub"]]⟩

/-- The filesystem after the C6 witness hg pull marker is set. -/
def fsC6p : FS := ⟨[], [["pulled"], ["sub"], ["sub", "m"]]⟩

/-- C6, witness for the amended theorem: the fresh-clone git path runs
clone, checkout, fetch-of-the-revision, checkout and succeeds; the
pre-existing hg path runs checkout, plain pull, checkout and succeeds. -/
theorem C6_pinned_revision_fallback_witness :
    rW.get_git envC6g pdC6g fsC6 0 = ⟨.ok (), fsC6f, 0,
      [.runC ⟨["git", "clone", "u", "gd"], ["sub"]⟩,
       .runC ⟨["git", "checkout", "v2"], ["sub", "gd"]⟩,
       .runC ⟨["git", "fetch", "u", "v2"], ["sub", "gd"]⟩,
       .runC ⟨["git", "checkout", "v2"], ["sub", "gd"]⟩]⟩ ∧
    rW.get_hg envC6 pdC6 fsC6m 0 = ⟨.ok (), fsC6p, 0,
      [.runC ⟨["hg", "checkout", "v2"], ["sub", "m"]⟩,
       .runC ⟨["hg", "pull"], ["sub", "m"]⟩,
       .runC ⟨["hg", "checkout", "v2"], ["sub", "m"]⟩]⟩ :=
  ⟨(C6_pinned_revision_fallback envC6g rW pdC6g fsC6 0 "gd" "v2" "u"
      rfl rfl rfl).2.1 (by decide) rfl rfl rfl "" fsC6 rfl 1 "" fsC6 rfl
      (by decide) "" fsC6f rfl "" fsC6f rfl,
   (C6_pinned_revision_fallback envC6 rW pdC6 fsC6m 0 "m" "v2" "u"
      rfl rfl rfl).2.2.1 (by decide) rfl 1 "" fsC6m rfl (by decide)
      "" fsC6p rfl "" fsC6p rfl⟩

end Wrap

/-! ## C9: lemmas for the patch fallback -/

namespace Wrap

theorem append_drop_of_isPrefixOf {src l : Path} (h : src.isPrefixOf l = true) :
    src ++ l.drop src.length = l := by
  rcases List.isPrefixOf_iff_prefix.mp h with ⟨t, rfl⟩
  rw [List.drop_left]

theorem isPrefixOf_append_self (l t : Path) : l.isPrefixOf (l ++ t) = true := by
  simp [List.isPrefixOf_iff_prefix]

theorem mem_files_of_getFile {fs : FS} {q : Path} {fe : File}
    (h : fs.getFile q = some fe) : (q, fe) ∈ fs.files := by
  unfold FS.getFile at h
  rcases Option.map_eq_some'.mp h with ⟨a, ha, hfe⟩
  have hkey : a.1 = q := by
    have := List.find?_some ha
    simpa using this
  have hmem := List.mem_of_find?_eq_some ha
  have : a = (q, fe) := by
    cases a
    simp only at hkey hfe
    rw [hkey, hfe]
  rw [this] at hmem
  exact hmem

theorem nodupKeys_writeFile (fs : FS) (p : Path) (f : File)
    (h : (fs.files.map Prod.fst).Nodup) :
    (((fs.writeFile p f).files).map Prod.fst).Nodup := by
  unfold FS.writeFile
  simp only [List.map_cons, List.nodup_cons]
  constructor
  · intro hp
    rcases List.mem_map.mp hp with ⟨e, he, hkey⟩
    have := (List.mem_filter.mp he).2
    simp [hkey] at this
  · exact h.sublist ((fs.files.filter_sublist).map Prod.fst)

theorem nodupKeys_installFold (dest : Path) (entries : List (Path × File)) (fs : FS)
    (h : (fs.files.map Prod.fst).Nodup) :
    (((entries.foldl (installStep dest) fs).files).map Prod.fst).Nodup := by
  induction entries generalizing fs with
  | nil => exact h
  | cons a es ih =>
    rw [List.foldl_cons]
    exact ih _ (nodupKeys_writeFile _ _ _ h)

theorem getFile_copyStep_ne (src dst : Path) (acc : FS) (e : Path × File) {q : Path}
    (h : dst ++ e.1.drop src.length ≠ q) :
    (copyStep src dst acc e).getFile q = acc.getFile q := by
  unfold copyStep
  rw [FS.getFile_writeFile_ne _ _ (Ne.symm h), FS.getFile_removeFile_ne _ (Ne.symm h)]
  split <;> rfl

theorem copyFold_getFile_frame (src dst : Path) (L : List (Path × File)) (fs : FS)
    {q : Path} (h : ∀ e ∈ L, dst ++ e.1.drop src.length ≠ q) :
    (L.foldl (copyStep src dst) fs).getFile q = fs.getFile q := by
  induction L generalizing fs with
  | nil => rfl
  | cons a es ih =>
    rw [List.foldl_cons, ih _ (fun e he => h e (List.mem_cons_of_mem a he))]
    exact getFile_copyStep_ne src dst fs a (h a (List.mem_cons_self a es))

theorem copyFold_getFile_of_mem (src dst : Path) (L : List (Path × File)) (fs : FS)
    {p : Path} {fe : File}
    (hmem : (p, fe) ∈ L) (hnd : (L.map Prod.fst).Nodup)
    (hpre : ∀ e ∈ L, src.isPrefixOf e.1 = true) :
    (L.foldl (copyStep src dst) fs).getFile (dst ++ p.drop src.length) = some fe := by
  induction L generalizing fs with
  | nil => cases hmem
  | cons a es ih =>
    rcases List.mem_cons.mp hmem with heq | hmem'
    · subst heq
      rw [List.foldl_cons]
      rw [copyFold_getFile_frame]
      · unfold copyStep
        exact FS.getFile_writeFile_self _ _ _
      · intro e he hq
        have hdrop : e.1.drop src.length = p.drop src.length :=
          List.append_cancel_left hq
        have h1 := append_drop_of_isPrefixOf (hpre e (List.mem_cons_of_mem _ he))
        have h2 := append_drop_of_isPrefixOf (hpre (p, fe) (List.mem_cons_self _ es))
        have hep : e.1 = p := by
          calc e.1 = src ++ e.1.drop src.length := h1.symm
            _ = src ++ p.drop src.length := by rw [hdrop]
            _ = p := h2
        have : p ∈ es.map Prod.fst := List.mem_map.mpr ⟨e, he, hep⟩
        exact (List.nodup_cons.mp hnd).1 this
    · rw [List.foldl_cons]
      exact ih _ hmem' (List.nodup_cons.mp hnd).2
        (fun e he => hpre e (List.mem_cons_of_mem a he))

theorem not_mem_dirs_removeTree (fs : FS) {p q : Path}
    (h : p.isPrefixOf q = true) : q ∉ (fs.removeTree p).dirs := by
  unfold FS.removeTree
  intro hq
  have := (List.mem_filter.mp hq).2
  simp [h] at this

end Wrap

namespace Wrap

@[simp] theorem FS.dirs_removeFile (fs : FS) (p : Path) :
    (fs.removeFile p).dirs = fs.dirs := rfl

/-- C9: when direct unpacking of the patch archive over the subprojects root
fails, `apply_patch` unpacks the archive into a fresh scratch directory and
merge-copies every file into the subprojects root: the call succeeds, every
archive entry ends up at its root-relative path — overwriting whatever was
there before, read-only or not — the copy loop creates a missing destination
directory at each step, and nothing below the scratch directory (file or
directory) survives in the final filesystem. -/
theorem C9_patch_fallback
    (env : Env) (r : Resolver) (pd : PackageDefinition) (fs : FS) (ctr : Nat)
    (path : Path) (f : File) (entries : List (Path × File))
    (hfi : r.get_file_internal env pd "patch" fs ctr = ⟨.ok path, fs, ctr, []⟩)
    (hbytes : fs.getFile path = some f)
    (harch : env.parseArchive f.content = some entries)
    (hfail : env.unpackOk f.content r.subdir_root = false)
    (hwork : env.unpackOk f.content (env.scratch ctr) = true)
    (hfsnd : (fs.files.map Prod.fst).Nodup)
    (hdisj : ∀ e ∈ entries, (env.scratch ctr).isPrefixOf (r.subdir_root ++ e.1) = false)
    (hnn : ∀ e ∈ entries, e.1 ≠ ([] : Path))
    (hnd : (entries.map Prod.fst).Nodup) :
    (r.apply_patch env pd fs ctr).res = .ok () ∧
    (∀ rel fe, (rel, fe) ∈ entries →
        (r.apply_patch env pd fs ctr).fs.getFile (r.subdir_root ++ rel) = some fe) ∧
    (∀ acc : FS, ∀ e : Path × File,
        acc.pathExists ((r.subdir_root ++ e.1).dropLast) = false →
        (r.subdir_root ++ e.1).dropLast
          ∈ (copyStep (env.scratch ctr) r.subdir_root acc
               ((env.scratch ctr) ++ e.1, e.2)).dirs) ∧
    (∀ q, (env.scratch ctr).isPrefixOf q = true →
        (r.apply_patch env pd fs ctr).fs.getFile q = none ∧
        q ∉ (r.apply_patch env pd fs ctr).fs.dirs) := by
  have hbytesw : FS.getFile ⟨fs.files, (env.scratch ctr) :: fs.dirs⟩ path = some f :=
    hbytes
  have hrun : r.apply_patch env pd fs ctr =
      ⟨.ok (),
       (Resolver.copy_tree
          (entries.foldl (installStep (env.scratch ctr))
            ⟨fs.files, (env.scratch ctr) :: fs.dirs⟩)
          (env.scratch ctr) r.subdir_root).removeTree (env.scratch ctr),
       ctr + 1, []⟩ := by
    simp [Resolver.apply_patch, hfi, unpack_archive, hbytes, hbytesw, harch,
          hfail, hwork]
  refine ⟨?_, ?_, ?_, ?_⟩
  · rw [hrun]
  · intro rel fe hmem
    rw [hrun]
    simp only
    rw [FS.getFile_removeTree_of_not_prefix _ (hdisj (rel, fe) hmem)]
    unfold Resolver.copy_tree
    have hget : (entries.foldl (installStep (env.scratch ctr))
        ⟨fs.files, (env.scratch ctr) :: fs.dirs⟩).getFile ((env.scratch ctr) ++ rel)
          = some fe :=
      getFile_installFold_of_mem _ entries _ hmem hnd
    have hmemfiles := mem_files_of_getFile hget
    have hne : (env.scratch ctr) ++ rel ≠ (env.scratch ctr) := by
      simp [hnn (rel, fe) hmem]
    have f1 : ((env.scratch ctr) ++ rel, fe) ∈
        (entries.foldl (installStep (env.scratch ctr))
          ⟨fs.files, (env.scratch ctr) :: fs.dirs⟩).filesUnder (env.scratch ctr) := by
      unfold FS.filesUnder
      refine List.mem_filter.mpr ⟨hmemfiles, ?_⟩
      simp [isPrefixOf_append_self, hne]
    have f2 : (((entries.foldl (installStep (env.scratch ctr))
        ⟨fs.files, (env.scratch ctr) :: fs.dirs⟩).filesUnder
          (env.scratch ctr)).map Prod.fst).Nodup := by
      have h2 := nodupKeys_installFold (env.scratch ctr) entries
        ⟨fs.files, (env.scratch ctr) :: fs.dirs⟩ hfsnd
      unfold FS.filesUnder
      exact h2.sublist ((List.filter_sublist _).map Prod.fst)
    have f3 : ∀ e ∈ (entries.foldl (installStep (env.scratch ctr))
        ⟨fs.files, (env.scratch ctr) :: fs.dirs⟩).filesUnder (env.scratch ctr),
        (env.scratch ctr).isPrefixOf e.1 = true := by
      intro e he
      unfold FS.filesUnder at he
      have := (List.mem_filter.mp he).2
      rw [Bool.and_eq_true] at this
      exact this.1
    have hmain := copyFold_getFile_of_mem (env.scratch ctr) r.subdir_root
      ((entries.foldl (installStep (env.scratch ctr))
          ⟨fs.files, (env.scratch ctr) :: fs.dirs⟩).filesUnder (env.scratch ctr))
      (entries.foldl (installStep (env.scratch ctr))
        ⟨fs.files, (env.scratch ctr) :: fs.dirs⟩)
      f1 f2 f3
    rw [List.drop_left] at hmain
    exact hmain
  · intro acc e hmiss
    unfold copyStep
    simp only [List.drop_left]
    rw [if_neg (by simp [hmiss])]
    simp [FS.mkdirs]
  · intro q hq
    rw [hrun]
    exact ⟨FS.getFile_removeTree_of_prefix _ hq, not_mem_dirs_removeTree _ hq⟩

end Wrap

namespace Wrap

/-- The archive entries of the C9 witness: a nested file and a top-level
read-only file. -/
def entriesC9 : List (Path × File) :=
  [(["a", "x.txt"], ⟨[9], false⟩), (["b.txt"], ⟨[8], true⟩)]

/-- The environment of the C9 witness: the cached patch archive `[3]` hashes
to `PH`; unpacking it directly over the subprojects root fails, unpacking it
anywhere else succeeds. -/
def envC9 : Env :=
  { baseEnv with
    sha := fun b => if b = [3] then "PH" else "X"
    parseArchive := fun b => if b = [3] then some entriesC9 else none
    unpackOk := fun _ dest => decide (dest ≠ ["sub"]) }

/-- The declaration of the C9 witness. -/
def pdC9 : PackageDefinition :=
  ⟨"file", [("patch_filename", "p.tar"), ("patch_hash", "PH")]⟩

/-- The filesystem of the C9 witness: the patch archive is cached and a
read-only file already occupies one of the destinations. -/
def fsC9 : FS :=
  ⟨[(["sub", "packagecache", "p.tar"], ⟨[3], false⟩),
    (["sub", "b.txt"], ⟨[0], true⟩)],
   [["sub"], ["sub", "packagecache"]]⟩

/-- C9, witness: the fallback succeeds, places the nested entry at its
root-relative path, overwrites the pre-existing read-only `sub/b.txt` with
the archive's file, creates the missing destination directory at the copy
step, and leaves nothing of the scratch directory behind. -/
theorem C9_patch_fallback_witness :
    (rW.apply_patch envC9 pdC9 fsC9 0).res = .ok () ∧
    (rW.apply_patch envC9 pdC9 fsC9 0).fs.getFile ["sub", "a", "x.txt"]
        = some ⟨[9], false⟩ ∧
    (rW.apply_patch envC9 pdC9 fsC9 0).fs.getFile ["sub", "b.txt"]
        = some ⟨[8], true⟩ ∧
    (["sub", "a"] : Path)
        ∈ (copyStep ["tmpdir0"] ["sub"] fsC9 (["tmpdir0", "a", "x.txt"], ⟨[9], false⟩)).dirs ∧
    (rW.apply_patch envC9 pdC9 fsC9 0).fs.getFile ["tmpdir0"] = none ∧
    (["tmpdir0"] : Path) ∉ (rW.apply_patch envC9 pdC9 fsC9 0).fs.dirs :=
  ⟨(C9_patch_fallback envC9 rW pdC9 fsC9 0 ["sub", "packagecache", "p.tar"]
      ⟨[3], false⟩ entriesC9 rfl rfl rfl rfl rfl (by decide) (by decide) (by decide)
      (by decide)).1,
   (C9_patch_fallback envC9 rW pdC9 fsC9 0 ["sub", "packagecache", "p.tar"]
      ⟨[3], false⟩ entriesC9 rfl rfl rfl rfl rfl (by decide) (by decide) (by decide)
      (by decide)).2.1 ["a", "x.txt"] ⟨[9], false⟩ (by decide),
   (C9_patch_fallback envC9 rW pdC9 fsC9 0 ["sub", "packagecache", "p.tar"]
      ⟨[3], false⟩ entriesC9 rfl rfl rfl rfl rfl (by decide) (by decide) (by decide)
      (by decide)).2.1 ["b.txt"] ⟨[8], true⟩ (by decide),
   (C9_patch_fallback envC9 rW pdC9 fsC9 0 ["sub", "packagecache", "p.tar"]
      ⟨[3], false⟩ entriesC9 rfl rfl rfl rfl rfl (by decide) (by decide) (by decide)
      (by decide)).2.2.1 fsC9 (["a", "x.txt"], ⟨[9], false⟩) (by decide),
   ((C9_patch_fallback envC9 rW pdC9 fsC9 0 ["sub", "packagecache", "p.tar"]
      ⟨[3], false⟩ entriesC9 rfl rfl rfl rfl rfl (by decide) (by decide) (by decide)
      (by decide)).2.2.2 ["tmpdir0"] (by decide)).1,
   ((C9_patch_fallback envC9 rW pdC9 fsC9 0 ["sub", "packagecache", "p.tar"]
      ⟨[3], false⟩ entriesC9 rfl rfl rfl rfl rfl (by decide) (by decide) (by decide)
      (by decide)).2.2.2 ["tmpdir0"] (by decide)).2⟩

end Wrap

/-! ## C4: the idempotent short-circuit -/

namespace Wrap

/-- The environment of the C4 counterexample: the wrap file for `q` names
directory `d1`, whose cached source archive contains `d1/meson.build` but
also a replacement `q.wrap` naming directory `d2`. -/
def envC4 : Env :=
  { baseEnv with
    sha := fun b => if b = [1] then "H" else "X"
    parseIni := fun b =>
      if b = [10] then
        [("wrap-file", [("directory", "d1"), ("source_filename", "s.tar"),
                        ("source_hash", "H")])]
      else if b = [20] then
        [("wrap-file", [("directory", "d2"), ("source_filename", "s.tar"),
                        ("source_hash", "H")])]
      else []
    parseArchive := fun b =>
      if b = [1] then
        some [(["d1", "meson.build"], ⟨[2], false⟩), (["q.wrap"], ⟨[20], false⟩)]
      else none
    run := fun _ fs => (1, "", fs) }

/-- The filesystem of the C4 counterexample. -/
def fsC4 : FS :=
  ⟨[(["sub", "q.wrap"], ⟨[10], false⟩),
    (["sub", "packagecache", "s.tar"], ⟨[1], false⟩)],
   [["sub"], ["sub", "packagecache"]]⟩

/-- C4, counterexample: the first `resolve` succeeds with `d1`, but its own
extraction replaced `q.wrap`, so the second call — with no filesystem change
between the calls — reads the new declaration and fails instead of
returning the same directory. -/
theorem C4_counterexample :
    (rW.resolve envC4 "q" fsC4 0).res = .ok "d1" ∧
    (rW.resolve envC4 "q" (rW.resolve envC4 "q" fsC4 0).fs
        (rW.resolve envC4 "q" fsC4 0).ctr).res = .error (.noMesonFile ["sub", "d2"]) :=
  ⟨rfl, rfl⟩

/-- C4 (amended): when the target directory already contains `meson.build`,
`resolve` returns the directory name immediately, with the filesystem
untouched and an empty effect trace (no network, VCS or filesystem
activity); and whenever a call to `resolve` succeeds and did not change the
dependency's own declaration file, a second call on the resulting state
returns the same directory with an empty effect trace — the first call's
success guarantees the build descriptor exists for the directory it
returned. -/
theorem C4_resolve_idempotent
    (env : Env) (r : Resolver) (pkg : String) (fs : FS) (ctr : Nat) :
    (∀ p, r.load_wrap env pkg fs = .ok p →
      fs.pathExists (r.subdir_root ++ [wrapDirectory p pkg, "meson.build"]) = true →
      r.resolve env pkg fs ctr = ⟨.ok (wrapDirectory p pkg), fs, ctr, []⟩) ∧
    (∀ d fs' ctr' tr', r.resolve env pkg fs ctr = ⟨.ok d, fs', ctr', tr'⟩ →
      fs'.getFile (r.subdir_root ++ [pkg ++ ".wrap"])
        = fs.getFile (r.subdir_root ++ [pkg ++ ".wrap"]) →
      r.resolve env pkg fs' ctr' = ⟨.ok d, fs', ctr', []⟩) := by
  constructor
  · intro p hload hmeson
    simp [Resolver.resolve, hload, hmeson]
  · intro d fs' ctr' tr' hres hwrap
    have hload2 : r.load_wrap env pkg fs' = r.load_wrap env pkg fs := by
      simp only [Resolver.load_wrap, hwrap]
    unfold Resolver.resolve at hres ⊢
    rw [hload2]
    cases hload : r.load_wrap env pkg fs with
    | error e =>
      rw [hload] at hres
      simp at hres
    | ok p =>
      rw [hload] at hres
      simp only [List.append_assoc, List.cons_append, List.nil_append] at hres ⊢
      by_cases hm : fs.pathExists
          (r.subdir_root ++ [wrapDirectory p pkg, "meson.build"]) = true
      · rw [if_pos hm] at hres
        simp only [Out.mk.injEq, Except.ok.injEq] at hres
        obtain ⟨hd, hfs, hctr, htr⟩ := hres
        subst hd
        subst hfs
        subst hctr
        rw [if_pos hm]
      · rw [if_neg hm] at hres
        cases hsub : r.resolve_git_submodule env
            (r.subdir_root ++ [wrapDirectory p pkg]) fs ctr with
        | mk res1 fs1 c1 t1 =>
        rw [hsub] at hres
        cases res1 with
        | error e => simp at hres
        | ok b =>
          simp only at hres
          cases hacq : r.acquire env p pkg (r.subdir_root ++ [wrapDirectory p pkg])
              fs1 c1 with
          | mk res2 fs2 c2 t2 =>
          rw [hacq] at hres
          cases res2 with
          | error e => simp at hres
          | ok u =>
            simp only at hres
            by_cases hm2 : fs2.pathExists
                (r.subdir_root ++ [wrapDirectory p pkg, "meson.build"]) = true
            · rw [if_neg (by simp [hm2])] at hres
              simp only [Out.mk.injEq, Except.ok.injEq] at hres
              obtain ⟨hd, hfs, hctr, htr⟩ := hres
              subst hd
              subst hfs
              subst hctr
              rw [if_pos hm2]
            · rw [if_pos (by simp [Bool.not_eq_true] at hm2 ⊢; exact hm2)] at hres
              simp at hres

end Wrap

namespace Wrap

/-- The environment of the C4 witness short-circuit: a wrap file naming
directory `d1`, not inside a git work tree. -/
def envC4w : Env :=
  { baseEnv with
    parseIni := fun b =>
      if b = [10] then [("wrap-file", [("directory", "d1")])] else []
    run := fun _ fs => (1, "", fs) }

/-- The filesystem of the C4 witness short-circuit: declaration and build
descriptor both present. -/
def fsC4w : FS :=
  ⟨[(["sub", "q.wrap"], ⟨[10], false⟩),
    (["sub", "d1", "meson.build"], ⟨[2], false⟩)],
   [["sub"], ["sub", "d1"]]⟩

/-- C4, witness: with `meson.build` already present `resolve` returns `d1`
with untouched filesystem and empty trace; and after a first resolution of
the C3 example (which extracts the cached archive and leaves the wrap file
alone), a second call returns the same directory with an empty trace. -/
theorem C4_resolve_idempotent_witness :
    rW.resolve envC4w "q" fsC4w 5 = ⟨.ok "d1", fsC4w, 5, []⟩ ∧
    rW.resolve envC3 "foo" (rW.resolve envC3 "foo" fsC3 0).fs
        (rW.resolve envC3 "foo" fsC3 0).ctr
      = ⟨.ok "foo", (rW.resolve envC3 "foo" fsC3 0).fs,
         (rW.resolve envC3 "foo" fsC3 0).ctr, []⟩ :=
  ⟨(C4_resolve_idempotent envC4w rW "q" fsC4w 5).1
      (some ⟨"file", [("directory", "d1")]⟩) rfl rfl,
   (C4_resolve_idempotent envC3 rW "foo" fsC3 0).2 "foo"
      (rW.resolve envC3 "foo" fsC3 0).fs (rW.resolve envC3 "foo" fsC3 0).ctr
      (rW.resolve envC3 "foo" fsC3 0).tr rfl rfl⟩

end Wrap
